import Mathlib

/-!
Verification of the Conway's Game of Life simulator (`game_of_life.py`).

The Python class `GameOfLife` is embedded as a structure carrying the same
fields.  The grid (a `rows × cols` numpy array of ints) is embedded as a
function `Nat → Nat → Int`; it is the Grid Engine's buffer, meaningful on
indices `r < rows`, `c < cols`.  The pygame display, clock, colors, and all
drawing calls have no effect on the simulation state and are not modelled.
Machine integers in the source are Python arbitrary-precision ints, so `Int`
(and `Nat` for sizes/counters) is an exact model.  Python `%` on ints with a
positive modulus agrees with `Int.emod`, and Python `//` agrees with
`Int.fdiv`.
-/

/-- State of the simulator: the fields assigned in `GameOfLife.__init__`
(lines 7-30 of `game_of_life.py`), minus the pygame screen/clock/colors,
which the simulation logic never reads. -/
structure GameOfLife where
  width : Nat
  height : Nat
  cell_size : Nat
  cols : Nat
  rows : Nat
  grid : Nat → Nat → Int
  running : Bool
  paused : Bool
  generation : Nat

/-- `GameOfLife.__init__(width, height, cell_size)` (lines 7-30):
`cols = width // cell_size`, `rows = height // cell_size`,
`grid = np.zeros((rows, cols))`, `running = True`, `paused = False`,
`generation = 0`.  There is no validation of `rows`/`cols`. -/
def GameOfLife.init (width height cell_size : Nat) : GameOfLife :=
  { width := width
    height := height
    cell_size := cell_size
    cols := width / cell_size
    rows := height / cell_size
    grid := fun _ _ => 0
    running := true
    paused := false
    generation := 0 }

/-- `randomize_grid` (lines 32-37): every in-range cell is set to 1 or 0
depending on `random.random() < density`; the generation counter is reset
to 0.  The oracle `rnd i j` models the outcome of the comparison
`random.random() < density` for cell `(i, j)` (the one source of
nondeterminism in the program). -/
def GameOfLife.randomize_grid (g : GameOfLife) (rnd : Nat → Nat → Bool) :
    GameOfLife :=
  { g with
    grid := fun i j =>
      if i < g.rows ∧ j < g.cols then (if rnd i j then 1 else 0)
      else g.grid i j
    generation := 0 }

/-- `clear_grid` (lines 39-42): `grid = np.zeros((rows, cols))`,
`generation = 0`. -/
def GameOfLife.clear_grid (g : GameOfLife) : GameOfLife :=
  { g with grid := fun _ _ => 0, generation := 0 }

/-- The index pairs produced by `for i in range(-1, 2): for j in range(-1, 2)`
in `count_neighbors` (lines 47-48). -/
def offsets9 : List (Int × Int) :=
  [(-1, -1), (-1, 0), (-1, 1), (0, -1), (0, 0), (0, 1), (1, -1), (1, 0), (1, 1)]

/-- `count_neighbors(row, col)` (lines 44-57): sums
`grid[(row+i) % rows][(col+j) % cols]` over the 9 offsets, skipping
`(0, 0)` (`continue`).  Python `%` with a positive modulus is `Int.emod`. -/
def GameOfLife.count_neighbors (g : GameOfLife) (row col : Int) : Int :=
  offsets9.foldl
    (fun count p =>
      if p.1 = 0 ∧ p.2 = 0 then count
      else
        count +
          g.grid (((row + p.1) % (g.rows : Int)).toNat)
            (((col + p.2) % (g.cols : Int)).toNat))
    0

/-- `update_grid` (lines 59-80): a fresh `new_grid` of zeros is filled by
reading only the old `self.grid` (through `count_neighbors` and
`self.grid[i][j]`); then `self.grid = new_grid` and `generation += 1`.
Cells outside the loop ranges keep the `np.zeros` value 0. -/
def GameOfLife.update_grid (g : GameOfLife) : GameOfLife :=
  { g with
    grid := fun i j =>
      if i < g.rows ∧ j < g.cols then
        if g.grid i j = 1 then
          if g.count_neighbors i j = 2 ∨ g.count_neighbors i j = 3 then 1
          else 0
        else
          if g.count_neighbors i j = 3 then 1 else 0
      else 0
    generation := g.generation + 1 }

/-- The spec's `toggle(row, col)` operation: the bounds check and cell flip
performed by `handle_mouse_click` after pixel-to-cell conversion
(lines 105-108): `if 0 <= row < self.rows and 0 <= col < self.cols:
self.grid[row][col] = 1 - self.grid[row][col]` (the `print` call is pure
output and is not modelled). -/
def GameOfLife.toggle (g : GameOfLife) (row col : Int) : GameOfLife :=
  if 0 ≤ row ∧ row < (g.rows : Int) ∧ 0 ≤ col ∧ col < (g.cols : Int) then
    { g with
      grid := fun r c =>
        if r = row.toNat ∧ c = col.toNat then 1 - g.grid r c else g.grid r c }
  else g

/-- `handle_mouse_click(pos)` (lines 99-108): `x, y = pos`;
`col = x // cell_size`; `row = y // cell_size`; then the bounds-checked
toggle.  Python `//` is floor division, i.e. `Int.fdiv`. -/
def GameOfLife.handle_mouse_click (g : GameOfLife) (pos : Int × Int) :
    GameOfLife :=
  g.toggle (pos.2.fdiv (g.cell_size : Int)) (pos.1.fdiv (g.cell_size : Int))

/-- One input event of the kinds distinguished by the event loop in `run`
(lines 139-155).  `keyR` carries the oracle for the random draws its
`randomize_grid` call will consume; `keyOther` is a `KEYDOWN` for any other
key; `otherEvent` is any other event type (including non-left mouse
buttons). -/
inductive Event where
  | quit
  | keySpace
  | keyR (rnd : Nat → Nat → Bool)
  | keyC
  | keyEscape
  | keyOther
  | mouseLeft (pos : Int × Int)
  | otherEvent

/-- The body of `for event in pygame.event.get()` in `run` (lines 139-155):
`QUIT` sets `running = False`; SPACE toggles `paused`; R randomizes; C
clears; ESCAPE sets `running = False`; a left mouse button down toggles the
clicked cell; everything else is ignored. -/
def GameOfLife.handleEvent (g : GameOfLife) (e : Event) : GameOfLife :=
  match e with
  | .quit => { g with running := false }
  | .keySpace => { g with paused := !g.paused }
  | .keyR rnd => g.randomize_grid rnd
  | .keyC => g.clear_grid
  | .keyEscape => { g with running := false }
  | .keyOther => g
  | .mouseLeft pos => g.handle_mouse_click pos
  | .otherEvent => g

/-- The whole event loop of one frame (lines 139-155): the events of the
frame's batch are dispatched in arrival order. -/
def GameOfLife.processEvents (g : GameOfLife) (events : List Event) :
    GameOfLife :=
  events.foldl GameOfLife.handleEvent g

/-- One iteration of the `while self.running` body (lines 138-167): dispatch
the batch of pending events, then `if not self.paused: self.update_grid()`.
The drawing calls and `clock.tick(10)` do not touch the simulation state. -/
def GameOfLife.frame (g : GameOfLife) (events : List Event) : GameOfLife :=
  let g' := g.processEvents events
  if g'.paused then g' else g'.update_grid

/-- The `while self.running` loop of `run` (lines 136-167) driven by a list
of per-frame event batches: a frame executes only while `running` holds;
once `running` is false the loop exits and remaining batches are never
consumed. -/
def GameOfLife.runFrames (g : GameOfLife) (batches : List (List Event)) :
    GameOfLife :=
  batches.foldl (fun s evs => if s.running then s.frame evs else s) g

/-- Numpy indexing for a single axis of length `n`: a negative index `k`
(with `-n ≤ k`) addresses position `n + k` from the end. -/
def npIndex (n : Nat) (k : Int) : Nat :=
  (if k < 0 then (n : Int) + k else k).toNat

/-- One assignment `game.grid[r][c] = v` as performed by the pattern
seeders: numpy ints index from the end when negative and raise `IndexError`
(modelled as `none`) outside `[-n, n)`. -/
def writeCell (g : GameOfLife) (r c v : Int) : Option GameOfLife :=
  if -(g.rows : Int) ≤ r ∧ r < (g.rows : Int) ∧ -(g.cols : Int) ≤ c ∧
      c < (g.cols : Int) then
    some
      { g with
        grid := fun r' c' =>
          if r' = npIndex g.rows r ∧ c' = npIndex g.cols c then v
          else g.grid r' c' }
  else none

/-- The seeding loop shared verbatim by `create_glider` (lines 181-184) and
`create_blinker` (lines 192-195): for each template cell `(i, j)`, if
`start_row + i < game.rows and start_col + j < game.cols` then
`game.grid[start_row + i][start_col + j] = cell`; otherwise the cell is
skipped.  Only this lower-right bound is checked; negative indices reach
numpy's from-the-end indexing. -/
def seedPattern (tmpl : List (List Int)) (g : GameOfLife)
    (start_row start_col : Int) : Option GameOfLife :=
  tmpl.enum.foldlM
    (fun gi pi =>
      pi.2.enum.foldlM
        (fun gj qj =>
          if start_row + (pi.1 : Int) < (gj.rows : Int) ∧
              start_col + (qj.1 : Int) < (gj.cols : Int) then
            writeCell gj (start_row + (pi.1 : Int)) (start_col + (qj.1 : Int))
              qj.2
          else pure gj)
        gi)
    g

/-- The `glider` template of `create_glider` (lines 175-179). -/
def gliderTemplate : List (List Int) := [[0, 1, 0], [0, 0, 1], [1, 1, 1]]

/-- The `blinker` template of `create_blinker` (lines 188-190). -/
def blinkerTemplate : List (List Int) := [[1, 1, 1]]

/-- `create_glider(game, start_row, start_col)` (lines 173-184). -/
def create_glider (g : GameOfLife) (start_row start_col : Int) :
    Option GameOfLife :=
  seedPattern gliderTemplate g start_row start_col

/-- `create_blinker(game, start_row, start_col)` (lines 186-195). -/
def create_blinker (g : GameOfLife) (start_row start_col : Int) :
    Option GameOfLife :=
  seedPattern blinkerTemplate g start_row start_col

/-- Test fixture: a game with the given dimensions and grid buffer (the
remaining fields as after construction). -/
def mkGame (R C : Nat) (f : Nat → Nat → Int) : GameOfLife :=
  { width := C
    height := R
    cell_size := 1
    cols := C
    rows := R
    grid := f
    running := true
    paused := false
    generation := 0 }

/-- Test fixture for the wraparound property: a grid whose only ALIVE cell
is `(rows - 1, cols - 1)`. -/
def singleGame (R C : Nat) : GameOfLife :=
  mkGame R C fun r c => if r = R - 1 ∧ c = C - 1 then 1 else 0

/-- Grid buffer holding value 1 exactly at the toroidal placement of the
cell list `cells` at top-left offset `(r0, c0)`, and 0 everywhere else. -/
def placeCells (R C r0 c0 : Nat) (cells : List (Nat × Nat)) :
    Nat → Nat → Int :=
  fun r c =>
    if ∃ p ∈ cells, r = (r0 + p.1) % R ∧ c = (c0 + p.2) % C then 1 else 0

/-- The ALIVE cells of the 3×3 glider template, as `(row, col)` offsets. -/
def gliderCells : List (Nat × Nat) := [(0, 1), (1, 2), (2, 0), (2, 1), (2, 2)]

/-! ### Helper lemmas -/

/-- A wrapped index `(x % n).toNat` is a valid row/column index. -/
lemma emod_toNat_lt (x : Int) (n : Nat) (hn : 0 < n) :
    (x % (n : Int)).toNat < n := by
  have h1 : 0 ≤ x % (n : Int) := Int.emod_nonneg x (by exact_mod_cast hn.ne')
  have h2 : x % (n : Int) < (n : Int) := Int.emod_lt_of_pos x (by exact_mod_cast hn)
  omega

/-- Python `(-1) % n` is `n - 1`. -/
lemma neg_one_emod_toNat (n : Nat) (hn : 0 < n) :
    ((-1 : Int) % (n : Int)).toNat = n - 1 := by
  have h0 : ((-1 : Int) + (n : Int) * 1) % (n : Int) = (-1 : Int) % (n : Int) :=
    Int.add_mul_emod_self_left (-1) (n : Int) 1
  have h1 : ((n : Int) - 1) % (n : Int) = (n : Int) - 1 :=
    Int.emod_eq_of_lt (by omega) (by omega)
  have h2 : ((-1 : Int) + (n : Int) * 1) = (n : Int) - 1 := by ring
  have h3 : (-1 : Int) % (n : Int) = (n : Int) - 1 := by rw [← h0, h2, h1]
  rw [h3]
  omega

/-- A sum of 0/1 values counts the positions holding 1. -/
lemma sum_indicator {α : Type} (f : α → Int) :
    ∀ L : List α, (∀ a ∈ L, f a = 0 ∨ f a = 1) →
      (L.map f).sum = ((L.filter fun a => f a = 1).length : Int)
  | [], _ => by simp
  | a :: L, h => by
    have ih := sum_indicator f L fun x hx => h x (List.mem_cons_of_mem _ hx)
    rcases h a (List.mem_cons_self _ _) with h0 | h1
    · simp [List.filter_cons, h0, ih]
    · simp [List.filter_cons, h1, ih]
      omega

/-- The 8 offsets actually contributing to `count_neighbors` (the source's 9
loop iterations minus the skipped `(0, 0)`). -/
def neighborOffsets : List (Int × Int) :=
  [(-1, -1), (-1, 0), (-1, 1), (0, -1), (0, 1), (1, -1), (1, 0), (1, 1)]

/-- The neighbor cell read for offset `p` around `(row, col)`. -/
def GameOfLife.nbVal (g : GameOfLife) (row col : Int) (p : Int × Int) : Int :=
  g.grid (((row + p.1) % (g.rows : Int)).toNat)
    (((col + p.2) % (g.cols : Int)).toNat)

lemma GameOfLife.count_neighbors_eq_sum (g : GameOfLife) (row col : Int) :
    g.count_neighbors row col = ((neighborOffsets.map (g.nbVal row col)).sum) := by
  simp [GameOfLife.count_neighbors, offsets9, neighborOffsets, GameOfLife.nbVal]
  ring

/-- With a 0/1-valued grid, `count_neighbors` counts the offsets whose
wrapped neighbor holds 1. -/
lemma GameOfLife.count_eq_filter (g : GameOfLife) (hR : 0 < g.rows)
    (hC : 0 < g.cols)
    (hv : ∀ r c, r < g.rows → c < g.cols → g.grid r c = 0 ∨ g.grid r c = 1)
    (row col : Int) :
    g.count_neighbors row col =
      ((neighborOffsets.filter fun p => g.nbVal row col p = 1).length : Int) := by
  rw [GameOfLife.count_neighbors_eq_sum]
  exact sum_indicator _ _ fun p _ =>
    hv _ _ (emod_toNat_lt _ _ hR) (emod_toNat_lt _ _ hC)

/-! ### C1: the step rule -/

/-- C1: one application of `update_grid` sets cell `(r, c)` of the new
buffer ALIVE (1) iff the cell was ALIVE with toroidal neighbor count 2 or
3, or DEAD with count 3; otherwise it is DEAD (0).  The whole next
generation is a pure function of the old buffer (frozen snapshot): two
states with the same dimensions and grid produce the same next grid. -/
theorem GameOfLife.update_grid_rule (g : GameOfLife) (r c : Nat)
    (hr : r < g.rows) (hc : c < g.cols) :
    (g.update_grid.grid r c = 1 ↔
      (g.grid r c = 1 ∧
        (g.count_neighbors r c = 2 ∨ g.count_neighbors r c = 3)) ∨
      (g.grid r c ≠ 1 ∧ g.count_neighbors r c = 3)) ∧
    (g.update_grid.grid r c = 1 ∨ g.update_grid.grid r c = 0) ∧
    (∀ h : GameOfLife, h.rows = g.rows → h.cols = g.cols → h.grid = g.grid →
      h.update_grid.grid = g.update_grid.grid) := by
  have hnew : g.update_grid.grid r c =
      if g.grid r c = 1 then
        if g.count_neighbors r c = 2 ∨ g.count_neighbors r c = 3 then 1 else 0
      else if g.count_neighbors r c = 3 then 1 else 0 := by
    simp [GameOfLife.update_grid, hr, hc]
  refine ⟨?_, ?_, ?_⟩
  · rw [hnew]
    split_ifs with h1 h2 h3 <;> simp_all
  · rw [hnew]
    split_ifs <;> simp
  · intro h hrows hcols hgrid
    simp [GameOfLife.update_grid, GameOfLife.count_neighbors, hrows, hcols,
      hgrid]

/-- Witness for C1 at a concrete state: the 3×3 grid of
`GameOfLife(300, 300, 100)` with cell `(0, 0)` examined. -/
theorem GameOfLife.update_grid_rule_witness :
    0 < (GameOfLife.init 300 300 100).rows ∧
    0 < (GameOfLife.init 300 300 100).cols ∧
    (((GameOfLife.init 300 300 100).update_grid.grid 0 0 = 1 ↔
      ((GameOfLife.init 300 300 100).grid 0 0 = 1 ∧
        ((GameOfLife.init 300 300 100).count_neighbors 0 0 = 2 ∨
          (GameOfLife.init 300 300 100).count_neighbors 0 0 = 3)) ∨
      ((GameOfLife.init 300 300 100).grid 0 0 ≠ 1 ∧
        (GameOfLife.init 300 300 100).count_neighbors 0 0 = 3)) ∧
    ((GameOfLife.init 300 300 100).update_grid.grid 0 0 = 1 ∨
      (GameOfLife.init 300 300 100).update_grid.grid 0 0 = 0) ∧
    (∀ h : GameOfLife, h.rows = (GameOfLife.init 300 300 100).rows →
      h.cols = (GameOfLife.init 300 300 100).cols →
      h.grid = (GameOfLife.init 300 300 100).grid →
      h.update_grid.grid = (GameOfLife.init 300 300 100).update_grid.grid)) :=
  ⟨by decide, by decide,
    GameOfLife.update_grid_rule (GameOfLife.init 300 300 100) 0 0 (by decide)
      (by decide)⟩

/-! ### C2: neighbor counting -/

/-- C2: on a grid with positive dimensions holding only 0/1 values,
`count_neighbors(row, col)` returns the number (in `[0, 8]`) of ALIVE cells
among the 8 toroidally wrapped neighbor positions
`((row+di) mod rows, (col+dj) mod cols)`, `di, dj ∈ {-1,0,1}` minus
`(0,0)`, with `mod` non-negative; in particular the single ALIVE cell of
`singleGame R C`, at `(R-1, C-1)`, is counted as a neighbor of `(0, 0)`. -/
theorem GameOfLife.count_neighbors_spec (g : GameOfLife) (hR : 0 < g.rows)
    (hC : 0 < g.cols)
    (hv : ∀ r c, r < g.rows → c < g.cols → g.grid r c = 0 ∨ g.grid r c = 1)
    (row col : Int) :
    g.count_neighbors row col =
      ((neighborOffsets.filter fun p => g.nbVal row col p = 1).length : Int) ∧
    0 ≤ g.count_neighbors row col ∧ g.count_neighbors row col ≤ 8 ∧
    (∀ R C : Nat, 0 < R → 0 < C →
      1 ≤ (singleGame R C).count_neighbors 0 0) := by
  have hmain := g.count_eq_filter hR hC hv row col
  refine ⟨hmain, by rw [hmain]; positivity, ?_, ?_⟩
  · rw [hmain]
    have hlen : (neighborOffsets.filter
        fun p => g.nbVal row col p = 1).length ≤ 8 :=
      le_trans (List.length_filter_le _ _) (by rfl)
    exact_mod_cast hlen
  · intro R C hR1 hC1
    have hv1 : ∀ r c, r < (singleGame R C).rows → c < (singleGame R C).cols →
        (singleGame R C).grid r c = 0 ∨ (singleGame R C).grid r c = 1 := by
      intro r c _ _
      simp only [singleGame, mkGame]
      split <;> simp
    have hR' : 0 < (singleGame R C).rows := hR1
    have hC' : 0 < (singleGame R C).cols := hC1
    rw [(singleGame R C).count_eq_filter hR' hC' hv1 0 0]
    have hmem : (-1, -1) ∈ neighborOffsets.filter
        fun p => (singleGame R C).nbVal 0 0 p = 1 := by
      rw [List.mem_filter]
      refine ⟨by simp [neighborOffsets], ?_⟩
      have hrow : (((0 : Int) + (-1 : Int)) % (R : Int)).toNat = R - 1 := by
        have h01 : ((0 : Int) + (-1 : Int)) = -1 := by ring
        rw [h01]
        exact neg_one_emod_toNat R hR1
      have hcol : (((0 : Int) + (-1 : Int)) % (C : Int)).toNat = C - 1 := by
        have h01 : ((0 : Int) + (-1 : Int)) = -1 := by ring
        rw [h01]
        exact neg_one_emod_toNat C hC1
      simp only [GameOfLife.nbVal, singleGame, mkGame, decide_eq_true_eq]
      simp only [hrow, hcol]
      simp
    have hpos : 0 < (neighborOffsets.filter
        fun p => (singleGame R C).nbVal 0 0 p = 1).length :=
      List.length_pos.mpr (List.ne_nil_of_mem hmem)
    exact_mod_cast hpos

/-- Witness for C2: a 5×5 grid with its single ALIVE cell at `(4, 4)`,
examined from `(0, 0)`: the count is exactly 1. -/
theorem GameOfLife.count_neighbors_spec_witness :
    0 < (singleGame 5 5).rows ∧
    (singleGame 5 5).count_neighbors 0 0 =
      ((neighborOffsets.filter
        fun p => (singleGame 5 5).nbVal 0 0 p = 1).length : Int) ∧
    (singleGame 5 5).count_neighbors 0 0 = 1 :=
  ⟨by decide,
    (GameOfLife.count_neighbors_spec (singleGame 5 5) (by decide) (by decide)
      (by intro r c _ _; simp only [singleGame, mkGame]; split <;> simp)
      0 0).1,
    by decide⟩

/-! ### C3: out-of-bounds toggle is a silent no-op -/

/-- C3: `toggle(row, col)` with `(row, col)` outside
`[0, rows) × [0, cols)` leaves the state completely unchanged (the guard on
lines 106-107 simply skips the assignment; nothing is raised); in
particular `toggle(-1, 0)`, `toggle(rows, 0)` and `toggle(0, cols)` are
no-ops. -/
theorem GameOfLife.toggle_out_of_bounds (g : GameOfLife) (row col : Int)
    (h : ¬(0 ≤ row ∧ row < (g.rows : Int) ∧ 0 ≤ col ∧ col < (g.cols : Int))) :
    g.toggle row col = g ∧
    g.toggle (-1) 0 = g ∧
    g.toggle (g.rows : Int) 0 = g ∧
    g.toggle 0 (g.cols : Int) = g := by
  refine ⟨?_, ?_, ?_, ?_⟩ <;>
    · unfold GameOfLife.toggle
      rw [if_neg (by omega)]

/-- Witness for C3: clicking at `(-1, 0)` on the 3×3 grid of
`GameOfLife(300, 300, 100)` changes nothing. -/
theorem GameOfLife.toggle_out_of_bounds_witness :
    ¬((0 : Int) ≤ -1 ∧ (-1 : Int) < ((GameOfLife.init 300 300 100).rows : Int) ∧
        (0 : Int) ≤ 0 ∧ (0 : Int) < ((GameOfLife.init 300 300 100).cols : Int)) ∧
    (GameOfLife.init 300 300 100).toggle (-1) 0 = GameOfLife.init 300 300 100 :=
  ⟨by decide,
    ((GameOfLife.init 300 300 100).toggle_out_of_bounds (-1) 0 (by decide)).1⟩

/-! ### C4: in-bounds toggle flips exactly one cell, twice is identity -/

/-- C4: for in-bounds `(row, col)`, `toggle` twice returns exactly the
original state; a single `toggle` maps cell value `v` to `1 - v` (so DEAD 0
becomes ALIVE 1 and ALIVE 1 becomes DEAD 0) and leaves every other cell —
and every other field — unchanged. -/
theorem GameOfLife.toggle_involutive (g : GameOfLife) (row col : Int)
    (h1 : 0 ≤ row) (h2 : row < (g.rows : Int)) (h3 : 0 ≤ col)
    (h4 : col < (g.cols : Int)) :
    (g.toggle row col).toggle row col = g ∧
    (g.toggle row col).grid row.toNat col.toNat =
      1 - g.grid row.toNat col.toNat ∧
    (g.grid row.toNat col.toNat = 0 →
      (g.toggle row col).grid row.toNat col.toNat = 1) ∧
    (g.grid row.toNat col.toNat = 1 →
      (g.toggle row col).grid row.toNat col.toNat = 0) ∧
    (∀ r c : Nat, ¬(r = row.toNat ∧ c = col.toNat) →
      (g.toggle row col).grid r c = g.grid r c) := by
  have hcond : 0 ≤ row ∧ row < (g.rows : Int) ∧ 0 ≤ col ∧ col < (g.cols : Int) :=
    ⟨h1, h2, h3, h4⟩
  have e1 : g.toggle row col =
      { g with
        grid := fun r c =>
          if r = row.toNat ∧ c = col.toNat then 1 - g.grid r c
          else g.grid r c } := by
    unfold GameOfLife.toggle
    rw [if_pos hcond]
  refine ⟨?_, ?_, ?_, ?_, ?_⟩
  · rw [e1]
    unfold GameOfLife.toggle
    rw [if_pos hcond]
    have hgrid : (fun r c =>
        if r = row.toNat ∧ c = col.toNat then
          1 - (if r = row.toNat ∧ c = col.toNat then 1 - g.grid r c
            else g.grid r c)
        else
          (if r = row.toNat ∧ c = col.toNat then 1 - g.grid r c
            else g.grid r c)) = g.grid := by
      funext r c
      by_cases hrc : r = row.toNat ∧ c = col.toNat
      · simp [hrc]
      · simp [hrc]
    simp only [hgrid]
  · rw [e1]
    simp
  · intro h0
    rw [e1]
    simp [h0]
  · intro h0
    rw [e1]
    simp [h0]
  · intro r c hrc
    rw [e1]
    simp [hrc]

/-- Witness for C4: toggling cell `(1, 2)` of a concrete 3×3 game twice. -/
theorem GameOfLife.toggle_involutive_witness :
    (0 : Int) ≤ 1 ∧ (1 : Int) < ((GameOfLife.init 300 300 100).rows : Int) ∧
    (0 : Int) ≤ 2 ∧ (2 : Int) < ((GameOfLife.init 300 300 100).cols : Int) ∧
    (((GameOfLife.init 300 300 100).toggle 1 2).toggle 1 2 =
      GameOfLife.init 300 300 100) :=
  ⟨by decide, by decide, by decide, by decide,
    ((GameOfLife.init 300 300 100).toggle_involutive 1 2 (by decide) (by decide)
      (by decide) (by decide)).1⟩

/-! ### C5: the generation counter -/

/-- A property preserved by every successful step of an `Option`-valued
fold is preserved by the whole fold. -/
lemma foldlM_option_ind {α β : Type} (l : List α) (F : β → α → Option β)
    (P : β → Prop) (hF : ∀ b a b', a ∈ l → P b → F b a = some b' → P b') :
    ∀ b b', P b → l.foldlM F b = some b' → P b' := by
  induction l with
  | nil =>
    intro b b' hb h
    simp only [List.foldlM_nil] at h
    cases h
    exact hb
  | cons a l ih =>
    intro b b' hb h
    rw [List.foldlM_cons] at h
    cases hFa : F b a with
    | none => rw [hFa] at h; cases h
    | some b1 =>
      rw [hFa] at h
      simp only [Option.bind_eq_bind, Option.some_bind] at h
      exact ih (fun b2 a2 b2' ha2 => hF b2 a2 b2' (List.mem_cons_of_mem _ ha2))
        b1 b' (hF b a b1 (List.mem_cons_self _ _) hb hFa) h

/-- `seedPattern` never changes the dimensions or the generation counter:
the seeding loops only assign into `game.grid`. -/
lemma seedPattern_preserves (tmpl : List (List Int)) (g : GameOfLife)
    (sr sc : Int) (g' : GameOfLife) (h : seedPattern tmpl g sr sc = some g') :
    g'.generation = g.generation ∧ g'.rows = g.rows ∧ g'.cols = g.cols := by
  have hinner : ∀ (row : Nat × List Int) (gi gj : GameOfLife),
      (gi.generation = g.generation ∧ gi.rows = g.rows ∧ gi.cols = g.cols) →
      row.2.enum.foldlM
        (fun gj qj =>
          if sr + (row.1 : Int) < (gj.rows : Int) ∧
              sc + (qj.1 : Int) < (gj.cols : Int) then
            writeCell gj (sr + (row.1 : Int)) (sc + (qj.1 : Int)) qj.2
          else pure gj) gi = some gj →
      gj.generation = g.generation ∧ gj.rows = g.rows ∧ gj.cols = g.cols := by
    intro row gi gj hgi hfold
    refine foldlM_option_ind _ _
      (fun b => b.generation = g.generation ∧ b.rows = g.rows ∧
        b.cols = g.cols) ?_ gi gj hgi hfold
    intro b a b' _ hb hstep
    split at hstep
    · unfold writeCell at hstep
      split at hstep
      · cases hstep
        exact hb
      · cases hstep
    · cases hstep
      exact hb
  exact foldlM_option_ind _ _
    (fun b => b.generation = g.generation ∧ b.rows = g.rows ∧
      b.cols = g.cols)
    (fun b a b' _ hb hstep => hinner a b b' hb hstep) g g'
    ⟨rfl, rfl, rfl⟩ h

/-- C5: the generation counter starts at 0 on construction, is incremented
by exactly 1 by each `update_grid`, is reset to 0 by `randomize_grid` and
`clear_grid` whatever its prior value, and is left unchanged by `toggle`,
by mouse clicks and by pattern seeding (so it never decreases outside the
explicit resets).  It is a `Nat`, hence non-negative by construction. -/
theorem GameOfLife.generation_spec :
    (∀ w h cs : Nat, (GameOfLife.init w h cs).generation = 0) ∧
    (∀ g : GameOfLife, g.update_grid.generation = g.generation + 1) ∧
    (∀ (g : GameOfLife) (rnd : Nat → Nat → Bool),
      (g.randomize_grid rnd).generation = 0) ∧
    (∀ g : GameOfLife, g.clear_grid.generation = 0) ∧
    (∀ (g : GameOfLife) (row col : Int),
      (g.toggle row col).generation = g.generation) ∧
    (∀ (g : GameOfLife) (pos : Int × Int),
      (g.handle_mouse_click pos).generation = g.generation) ∧
    (∀ (tmpl : List (List Int)) (g : GameOfLife) (sr sc : Int)
      (g' : GameOfLife), seedPattern tmpl g sr sc = some g' →
      g'.generation = g.generation) := by
  refine ⟨fun _ _ _ => rfl, fun _ => rfl, fun _ _ => rfl, fun _ => rfl,
    ?_, ?_, ?_⟩
  · intro g row col
    unfold GameOfLife.toggle
    split <;> rfl
  · intro g pos
    unfold GameOfLife.handle_mouse_click GameOfLife.toggle
    split <;> rfl
  · intro tmpl g sr sc g' h
    exact (seedPattern_preserves tmpl g sr sc g' h).1

/-- Witness for C5: seeding the glider into a concrete 3×3 game leaves the
generation counter at its prior value. -/
theorem GameOfLife.generation_spec_witness :
    create_glider (GameOfLife.init 300 300 100) 0 0 =
      some ((create_glider (GameOfLife.init 300 300 100) 0 0).getD
        (GameOfLife.init 300 300 100)) ∧
    ((create_glider (GameOfLife.init 300 300 100) 0 0).getD
        (GameOfLife.init 300 300 100)).generation =
      (GameOfLife.init 300 300 100).generation :=
  ⟨rfl,
    GameOfLife.generation_spec.2.2.2.2.2.2 gliderTemplate
      (GameOfLife.init 300 300 100) 0 0 _ rfl⟩

/-! ### C6: step gating by the pause state -/

lemma GameOfLife.clear_grid_paused (g : GameOfLife) :
    g.clear_grid.paused = g.paused := rfl

lemma GameOfLife.toggle_paused (g : GameOfLife) (row col : Int) :
    (g.toggle row col).paused = g.paused := by
  unfold GameOfLife.toggle
  split <;> rfl

lemma GameOfLife.handle_mouse_click_paused (g : GameOfLife) (pos : Int × Int) :
    (g.handle_mouse_click pos).paused = g.paused :=
  g.toggle_paused _ _

/-- C6: a frame steps the grid exactly once iff the simulation is not
paused once the frame's batch has been dispatched; while paused, any number
of event-free frames leave the state untouched, yet clear and toggle
effects from events of the same batch still apply. -/
theorem GameOfLife.frame_step_gating (g : GameOfLife) (evs : List Event)
    (n : Nat) :
    ((g.processEvents evs).paused = false →
      g.frame evs = (g.processEvents evs).update_grid) ∧
    ((g.processEvents evs).paused = true →
      g.frame evs = g.processEvents evs) ∧
    (g.paused = true → g.runFrames (List.replicate n []) = g) ∧
    (g.paused = true → g.frame [Event.keyC] = g.clear_grid) ∧
    (∀ pos, g.paused = true →
      g.frame [Event.mouseLeft pos] = g.handle_mouse_click pos) := by
  refine ⟨?_, ?_, ?_, ?_, ?_⟩
  · intro h
    simp [GameOfLife.frame, h]
  · intro h
    simp [GameOfLife.frame, h]
  · intro h
    induction n with
    | zero => rfl
    | succ n ih =>
      have hframe : g.frame [] = g := by
        unfold GameOfLife.frame GameOfLife.processEvents
        simp only [List.foldl_nil, h]
        rfl
      unfold GameOfLife.runFrames at ih ⊢
      rw [List.replicate_succ, List.foldl_cons]
      cases hr : g.running <;> simp only [hframe] <;> exact ih
  · intro h
    simp [GameOfLife.frame, GameOfLife.processEvents, GameOfLife.handleEvent,
      GameOfLife.clear_grid_paused, h]
  · intro pos h
    simp [GameOfLife.frame, GameOfLife.processEvents, GameOfLife.handleEvent,
      GameOfLife.handle_mouse_click_paused, h]

/-- Witness for C6 on a concrete paused game: five event-free frames change
nothing, and a clear event still applies while paused. -/
theorem GameOfLife.frame_step_gating_witness :
    ({ GameOfLife.init 300 300 100 with paused := true } :
      GameOfLife).paused = true ∧
    ({ GameOfLife.init 300 300 100 with paused := true } :
      GameOfLife).runFrames (List.replicate 5 []) =
      { GameOfLife.init 300 300 100 with paused := true } ∧
    ({ GameOfLife.init 300 300 100 with paused := true } :
      GameOfLife).frame [Event.keyC] =
      ({ GameOfLife.init 300 300 100 with paused := true } :
        GameOfLife).clear_grid :=
  ⟨rfl,
    (GameOfLife.frame_step_gating _ [] 5).2.2.1 rfl,
    (GameOfLife.frame_step_gating
      { GameOfLife.init 300 300 100 with paused := true } [] 5).2.2.2.1 rfl⟩

/-! ### C7: effect of a quit/escape event -/

lemma GameOfLife.handleEvent_running_false (g : GameOfLife) (e : Event)
    (h : g.running = false) : (g.handleEvent e).running = false := by
  cases e <;>
    simp only [GameOfLife.handleEvent, GameOfLife.randomize_grid,
      GameOfLife.clear_grid, GameOfLife.handle_mouse_click,
      GameOfLife.toggle] <;>
    first
      | exact h
      | rfl
      | (split <;> exact h)

lemma GameOfLife.processEvents_running_false (g : GameOfLife)
    (evs : List Event) (h : g.running = false) :
    (g.processEvents evs).running = false := by
  induction evs generalizing g with
  | nil => exact h
  | cons e evs ih =>
    unfold GameOfLife.processEvents at ih ⊢
    rw [List.foldl_cons]
    exact ih _ (g.handleEvent_running_false e h)

/-- C7 (amended): a quit or escape event anywhere in the batch clears the
`running` flag for good — every later event handler preserves
`running = false`, the frame's trailing step does too, and once `running`
is false `runFrames` consumes no further batch (the loop exits, a sink
state).  What the claim wrongly asserted — that events after the quit are
ignored and that the step is skipped in the quit frame — is refuted by
`GameOfLife.quit_claim_false`. -/
theorem GameOfLife.quit_terminal (g : GameOfLife) (evs : List Event)
    (batches : List (List Event))
    (h : Event.quit ∈ evs ∨ Event.keyEscape ∈ evs) :
    (g.processEvents evs).running = false ∧
    (g.frame evs).running = false ∧
    (∀ g' : GameOfLife, g'.running = false → g'.runFrames batches = g') := by
  have hproc : (g.processEvents evs).running = false := by
    induction evs generalizing g with
    | nil => simp at h
    | cons e evs ih =>
      unfold GameOfLife.processEvents
      rw [List.foldl_cons]
      by_cases he : e = Event.quit ∨ e = Event.keyEscape
      · refine GameOfLife.processEvents_running_false _ _ ?_
        rcases he with rfl | rfl <;> rfl
      · push_neg at he
        refine ih _ ?_
        rcases h with h1 | h1
        · rcases List.mem_cons.mp h1 with h2 | h2
          · exact absurd h2.symm he.1
          · exact Or.inl h2
        · rcases List.mem_cons.mp h1 with h2 | h2
          · exact absurd h2.symm he.2
          · exact Or.inr h2
  refine ⟨hproc, ?_, ?_⟩
  · have hupd : ((g.processEvents evs).update_grid).running =
        (g.processEvents evs).running := rfl
    simp only [GameOfLife.frame]
    split
    · exact hproc
    · rw [hupd]
      exact hproc
  · intro g' hg'
    induction batches with
    | nil => rfl
    | cons b bs ih =>
      unfold GameOfLife.runFrames at ih ⊢
      rw [List.foldl_cons, hg']
      simpa using ih

/-- Witness for C7's amended statement, at a concrete game and batch. -/
theorem GameOfLife.quit_terminal_witness :
    (Event.quit ∈ [Event.quit, Event.keyC] ∨
      Event.keyEscape ∈ [Event.quit, Event.keyC]) ∧
    ((GameOfLife.init 300 300 100).processEvents
      [Event.quit, Event.keyC]).running = false :=
  ⟨Or.inl (List.mem_cons_self _ _),
    (GameOfLife.quit_terminal (GameOfLife.init 300 300 100)
      [Event.quit, Event.keyC] [] (Or.inl (List.mem_cons_self _ _))).1⟩

/-- Counterexample to C7 as stated: in the source's event loop a `QUIT`
event only clears `self.running`; the `for` loop still dispatches the
remaining events of the batch and the frame still calls `update_grid()`.
Concretely, on a paused 3×3 game a mouse click *after* the quit event still
toggles cell `(0, 0)` (from 0 to 1), and on a running game the quit frame
still advances the generation counter from 0 to 1. -/
theorem GameOfLife.quit_claim_false :
    (({ GameOfLife.init 300 300 100 with paused := true } :
        GameOfLife).grid 0 0 = 0 ∧
      (({ GameOfLife.init 300 300 100 with paused := true } :
        GameOfLife).frame [Event.quit, Event.mouseLeft (5, 5)]).grid 0 0 = 1) ∧
    ((GameOfLife.init 300 300 100).generation = 0 ∧
      ((GameOfLife.init 300 300 100).frame [Event.quit]).generation = 1) := by
  refine ⟨⟨rfl, ?_⟩, rfl, ?_⟩ <;> decide

/-! ### C8: construction does not validate the dimensions -/

/-- C8 (code bug): `__init__` performs no validation at all.  With
`width=800`, `height=600`, `cell_size=700` (a cell size larger than the
surface height), construction succeeds and silently produces a zero-area
grid with `rows = 0`, instead of the descriptive startup failure the spec
requires.  Every later wrapped index `x % rows` would divide by zero. -/
theorem GameOfLife.init_accepts_zero_rows :
    (GameOfLife.init 800 600 700).rows = 0 ∧
    (GameOfLife.init 800 600 700).cols = 1 ∧
    (GameOfLife.init 800 600 700).running = true ∧
    (GameOfLife.init 800 600 700).generation = 0 := by
  refine ⟨rfl, rfl, rfl, rfl⟩

/-! ### C10: pattern seeding, clipping only at the lower-right -/

/-- Pure form of one seeding assignment: template cell `(i, q.1)` holding
value `q.2` is written at `(npIndex rows (sr+i), npIndex cols (sc+q.1))`
when `sr+i < rows ∧ sc+q.1 < cols`, and skipped otherwise. -/
def seedStep (R C : Nat) (sr sc : Int) (i : Nat) (f : Nat → Nat → Int)
    (q : Nat × Int) : Nat → Nat → Int :=
  if sr + (i : Int) < (R : Int) ∧ sc + (q.1 : Int) < (C : Int) then
    fun r' c' =>
      if r' = npIndex R (sr + (i : Int)) ∧ c' = npIndex C (sc + (q.1 : Int))
      then q.2 else f r' c'
  else f

/-- Pure form of the inner seeding loop over one template row. -/
def seedRow (R C : Nat) (sr sc : Int) (i : Nat) (l : List (Nat × Int))
    (f : Nat → Nat → Int) : Nat → Nat → Int :=
  l.foldl (seedStep R C sr sc i) f

/-- Pure form of the whole seeding double loop. -/
def seedModel (tmpl : List (List Int)) (R C : Nat) (sr sc : Int)
    (f : Nat → Nat → Int) : Nat → Nat → Int :=
  tmpl.enum.foldl (fun fi pi => seedRow R C sr sc pi.1 pi.2.enum fi) f

/-- Template cell `(i, j)` targets grid position `(r', c')`: its guard
holds and the (possibly negative, numpy-wrapped) indices resolve there. -/
def hitsCell (R C : Nat) (sr sc : Int) (i j : Nat) (r' c' : Nat) : Prop :=
  sr + (i : Int) < (R : Int) ∧ sc + (j : Int) < (C : Int) ∧
  r' = npIndex R (sr + (i : Int)) ∧ c' = npIndex C (sc + (j : Int))

lemma seedRowM (sr sc : Int) (i : Nat) :
    ∀ (l : List (Nat × Int)) (gj : GameOfLife), -(gj.rows : Int) ≤ sr →
      -(gj.cols : Int) ≤ sc →
      l.foldlM
        (fun gj qj =>
          if sr + (i : Int) < (gj.rows : Int) ∧
              sc + (qj.1 : Int) < (gj.cols : Int) then
            writeCell gj (sr + (i : Int)) (sc + (qj.1 : Int)) qj.2
          else pure gj) gj
      = some { gj with grid := seedRow gj.rows gj.cols sr sc i l gj.grid } := by
  intro l
  induction l with
  | nil =>
    intro gj _ _
    simp [seedRow]
  | cons q l ih =>
    intro gj hsr hsc
    rw [List.foldlM_cons]
    by_cases hg : sr + (i : Int) < (gj.rows : Int) ∧
        sc + (q.1 : Int) < (gj.cols : Int)
    · obtain ⟨hg1, hg2⟩ := hg
      set gj' : GameOfLife := { gj with
        grid := fun r' c' =>
          if r' = npIndex gj.rows (sr + (i : Int)) ∧
              c' = npIndex gj.cols (sc + (q.1 : Int)) then q.2
          else gj.grid r' c' } with hgj'
      have hWq : (if sr + (i : Int) < (gj.rows : Int) ∧
            sc + (q.1 : Int) < (gj.cols : Int) then
          writeCell gj (sr + (i : Int)) (sc + (q.1 : Int)) q.2
        else pure gj) = some gj' := by
        rw [if_pos ⟨hg1, hg2⟩]
        unfold writeCell
        rw [if_pos ⟨by omega, hg1, by omega, hg2⟩]
      rw [hWq]
      simp only [Option.bind_eq_bind, Option.some_bind]
      rw [ih gj' hsr hsc]
      refine congrArg some ?_
      show ({ gj with
          grid := seedRow gj.rows gj.cols sr sc i l gj'.grid } : GameOfLife) =
        { gj with grid := seedRow gj.rows gj.cols sr sc i (q :: l) gj.grid }
      have hstep : gj'.grid = seedStep gj.rows gj.cols sr sc i gj.grid q := by
        rw [hgj']
        unfold seedStep
        rw [if_pos ⟨hg1, hg2⟩]
      rw [hstep]
      rfl
    · rw [if_neg hg]
      have hpure : (pure gj : Option GameOfLife) = some gj := rfl
      rw [hpure]
      simp only [Option.bind_eq_bind, Option.some_bind]
      rw [ih gj hsr hsc]
      have hrow : seedRow gj.rows gj.cols sr sc i (q :: l) gj.grid =
          seedRow gj.rows gj.cols sr sc i l
            (seedStep gj.rows gj.cols sr sc i gj.grid q) := by
        simp [seedRow]
      have hstep : seedStep gj.rows gj.cols sr sc i gj.grid q = gj.grid := by
        unfold seedStep
        rw [if_neg hg]
      rw [hrow, hstep]

lemma seedOuterM (sr sc : Int) :
    ∀ (L : List (Nat × List Int)) (gg : GameOfLife), -(gg.rows : Int) ≤ sr →
      -(gg.cols : Int) ≤ sc →
      L.foldlM
        (fun gi pi =>
          pi.2.enum.foldlM
            (fun gj qj =>
              if sr + (pi.1 : Int) < (gj.rows : Int) ∧
                  sc + (qj.1 : Int) < (gj.cols : Int) then
                writeCell gj (sr + (pi.1 : Int)) (sc + (qj.1 : Int)) qj.2
              else pure gj) gi) gg
      = some { gg with
          grid := L.foldl
            (fun fi pi => seedRow gg.rows gg.cols sr sc pi.1 pi.2.enum fi)
            gg.grid } := by
  intro L
  induction L with
  | nil =>
    intro gg _ _
    simp
  | cons pi L ih =>
    intro gg hsr hsc
    rw [List.foldlM_cons]
    rw [seedRowM sr sc pi.1 pi.2.enum gg hsr hsc]
    simp only [Option.bind_eq_bind, Option.some_bind]
    rw [ih { gg with
        grid := seedRow gg.rows gg.cols sr sc pi.1 pi.2.enum gg.grid } hsr hsc]
    rfl

/-- `seedPattern` under in-range offsets: it always succeeds and its result
is the pure double fold `seedModel` applied to the old grid. -/
lemma seedPattern_eq_model (tmpl : List (List Int)) (g : GameOfLife)
    (sr sc : Int) (hsr : -(g.rows : Int) ≤ sr) (hsc : -(g.cols : Int) ≤ sc) :
    seedPattern tmpl g sr sc =
      some { g with grid := seedModel tmpl g.rows g.cols sr sc g.grid } :=
  seedOuterM sr sc tmpl.enum g hsr hsc

lemma seedStep_skip {R C : Nat} {sr sc : Int} {i : Nat}
    {f : Nat → Nat → Int} {q : Nat × Int} {r' c' : Nat}
    (h : ¬ hitsCell R C sr sc i q.1 r' c') :
    seedStep R C sr sc i f q r' c' = f r' c' := by
  unfold seedStep
  by_cases hguard : sr + (i : Int) < (R : Int) ∧ sc + (q.1 : Int) < (C : Int)
  · rw [if_pos hguard]
    have hpos : ¬(r' = npIndex R (sr + (i : Int)) ∧
        c' = npIndex C (sc + (q.1 : Int))) :=
      fun hp => h ⟨hguard.1, hguard.2, hp.1, hp.2⟩
    show (if r' = npIndex R (sr + (i : Int)) ∧
        c' = npIndex C (sc + (q.1 : Int)) then q.2 else f r' c') = f r' c'
    rw [if_neg hpos]
  · rw [if_neg hguard]

lemma seedStep_hit {R C : Nat} {sr sc : Int} {i : Nat}
    {f : Nat → Nat → Int} {q : Nat × Int} {r' c' : Nat}
    (hg1 : sr + (i : Int) < (R : Int)) (hg2 : sc + (q.1 : Int) < (C : Int))
    (hr' : r' = npIndex R (sr + (i : Int)))
    (hc' : c' = npIndex C (sc + (q.1 : Int))) :
    seedStep R C sr sc i f q r' c' = q.2 := by
  unfold seedStep
  rw [if_pos ⟨hg1, hg2⟩]
  show (if r' = npIndex R (sr + (i : Int)) ∧
      c' = npIndex C (sc + (q.1 : Int)) then q.2 else f r' c') = q.2
  rw [if_pos ⟨hr', hc'⟩]

lemma seedRow_skip {R C : Nat} {sr sc : Int} {i : Nat} :
    ∀ (l : List (Nat × Int)) (f : Nat → Nat → Int) {r' c' : Nat},
      (∀ q ∈ l, ¬ hitsCell R C sr sc i q.1 r' c') →
      seedRow R C sr sc i l f r' c' = f r' c' := by
  intro l
  induction l with
  | nil => intro f r' c' _; rfl
  | cons q l ih =>
    intro f r' c' h
    show seedRow R C sr sc i l (seedStep R C sr sc i f q) r' c' = f r' c'
    rw [ih _ fun q' hq' => h q' (List.mem_cons_of_mem _ hq')]
    exact seedStep_skip (h q (List.mem_cons_self _ _))

lemma seedRow_last_hit {R C : Nat} {sr sc : Int} {i : Nat} {r' c' : Nat}
    (l2 : List (Nat × Int)) (q0 : Nat × Int)
    (hg1 : sr + (i : Int) < (R : Int)) (hg2 : sc + (q0.1 : Int) < (C : Int))
    (hr' : r' = npIndex R (sr + (i : Int)))
    (hc' : c' = npIndex C (sc + (q0.1 : Int)))
    (h2 : ∀ q ∈ l2, ¬ hitsCell R C sr sc i q.1 r' c') :
    ∀ (l1 : List (Nat × Int)) (f : Nat → Nat → Int),
      seedRow R C sr sc i (l1 ++ q0 :: l2) f r' c' = q0.2 := by
  intro l1
  induction l1 with
  | nil =>
    intro f
    show seedRow R C sr sc i l2 (seedStep R C sr sc i f q0) r' c' = q0.2
    rw [seedRow_skip _ _ h2]
    exact seedStep_hit hg1 hg2 hr' hc'
  | cons q l1 ih =>
    intro f
    show seedRow R C sr sc i (l1 ++ q0 :: l2)
      (seedStep R C sr sc i f q) r' c' = q0.2
    exact ih _

lemma seedOuter_skip {R C : Nat} {sr sc : Int} :
    ∀ (L : List (Nat × List Int)) (f : Nat → Nat → Int) {r' c' : Nat},
      (∀ pi ∈ L, ∀ q ∈ pi.2.enum, ¬ hitsCell R C sr sc pi.1 q.1 r' c') →
      L.foldl (fun fi pi => seedRow R C sr sc pi.1 pi.2.enum fi) f r' c'
        = f r' c' := by
  intro L
  induction L with
  | nil => intro f r' c' _; rfl
  | cons pi L ih =>
    intro f r' c' h
    show L.foldl (fun fi pi => seedRow R C sr sc pi.1 pi.2.enum fi)
      (seedRow R C sr sc pi.1 pi.2.enum f) r' c' = f r' c'
    rw [ih _ fun pi' hpi' => h pi' (List.mem_cons_of_mem _ hpi')]
    exact seedRow_skip _ _ (h pi (List.mem_cons_self _ _) )

lemma seedOuter_last_hit {R C : Nat} {sr sc : Int} {r' c' : Nat}
    (L2 : List (Nat × List Int)) (i0 : Nat) (row : List Int)
    (l1 l2 : List (Nat × Int)) (q0 : Nat × Int)
    (hrow : row.enum = l1 ++ q0 :: l2)
    (hg1 : sr + (i0 : Int) < (R : Int)) (hg2 : sc + (q0.1 : Int) < (C : Int))
    (hr' : r' = npIndex R (sr + (i0 : Int)))
    (hc' : c' = npIndex C (sc + (q0.1 : Int)))
    (h2 : ∀ q ∈ l2, ¬ hitsCell R C sr sc i0 q.1 r' c')
    (h3 : ∀ pi ∈ L2, ∀ q ∈ pi.2.enum, ¬ hitsCell R C sr sc pi.1 q.1 r' c') :
    ∀ (L1 : List (Nat × List Int)) (f : Nat → Nat → Int),
      (L1 ++ (i0, row) :: L2).foldl
        (fun fi pi => seedRow R C sr sc pi.1 pi.2.enum fi) f r' c' = q0.2 := by
  intro L1
  induction L1 with
  | nil =>
    intro f
    show L2.foldl (fun fi pi => seedRow R C sr sc pi.1 pi.2.enum fi)
      (seedRow R C sr sc i0 row.enum f) r' c' = q0.2
    rw [seedOuter_skip _ _ h3, hrow]
    exact seedRow_last_hit l2 q0 hg1 hg2 hr' hc' h2 l1 f
  | cons pi L1 ih =>
    intro f
    show (L1 ++ (i0, row) :: L2).foldl
      (fun fi pi => seedRow R C sr sc pi.1 pi.2.enum fi)
      (seedRow R C sr sc pi.1 pi.2.enum f) r' c' = q0.2
    exact ih _

/-- Two distinct glider-template cells never resolve to the same grid
position, as long as the grid is at least 3×3 and the offsets are within
numpy's indexable range. -/
lemma hitsCell_same_target {R C : Nat} {sr sc : Int}
    (hR : 3 ≤ R) (hC : 3 ≤ C) (hsr : -(R : Int) ≤ sr) (hsc : -(C : Int) ≤ sc)
    {i0 j0 i j : Nat} (hi0 : i0 < 3) (hj0 : j0 < 3) (hi : i < 3) (hj : j < 3)
    (hg1 : sr + (i0 : Int) < (R : Int)) (hg2 : sc + (j0 : Int) < (C : Int))
    (hne : ¬(i = i0 ∧ j = j0)) :
    ¬ hitsCell R C sr sc i j (npIndex R (sr + (i0 : Int)))
      (npIndex C (sc + (j0 : Int))) := by
  rintro ⟨ha1, ha2, ha3, ha4⟩
  refine hne ⟨?_, ?_⟩
  · unfold npIndex at ha3
    split_ifs at ha3 <;> omega
  · unfold npIndex at ha4
    split_ifs at ha4 <;> omega

/-- C10: pattern seeding (shown for the glider seeder, whose loop is shared
verbatim with the blinker seeder).  On a grid at least 3×3 with start
offsets in numpy's indexable range: (1) seeding always succeeds — no error
is raised — and equals the pure double fold `seedModel`; (2) every template
cell `(i, j)` whose guard `start_row+i < rows ∧ start_col+j < cols` holds
is written — DEAD template values included, overwriting whatever was
beneath — at `(npIndex rows (start_row+i), npIndex cols (start_col+j))`;
(3) a position targeted by no guarded template cell keeps its old value
(so a cell is written iff its guard holds, and only bottom/right overflow
is clipped); (4) for a negative index `k` the written position is
`rows + k` — there is no top/left guard. -/
theorem create_glider_spec (g : GameOfLife) (sr sc : Int)
    (hR : 3 ≤ g.rows) (hC : 3 ≤ g.cols)
    (hsr : -(g.rows : Int) ≤ sr) (hsc : -(g.cols : Int) ≤ sc) :
    create_glider g sr sc =
      some { g with grid := seedModel gliderTemplate g.rows g.cols sr sc g.grid } ∧
    (∀ i j : Nat, i < 3 → j < 3 → sr + (i : Int) < (g.rows : Int) →
      sc + (j : Int) < (g.cols : Int) →
      seedModel gliderTemplate g.rows g.cols sr sc g.grid
        (npIndex g.rows (sr + (i : Int))) (npIndex g.cols (sc + (j : Int)))
      = (gliderTemplate.getD i []).getD j 0) ∧
    (∀ r' c' : Nat,
      (∀ i j : Nat, i < 3 → j < 3 → ¬ hitsCell g.rows g.cols sr sc i j r' c') →
      seedModel gliderTemplate g.rows g.cols sr sc g.grid r' c' = g.grid r' c') ∧
    (∀ k : Int, k < 0 → npIndex g.rows k = ((g.rows : Int) + k).toNat) := by
  refine ⟨seedPattern_eq_model gliderTemplate g sr sc hsr hsc, ?_, ?_, ?_⟩
  · intro i j hi hj hgi hgj
    interval_cases i <;> interval_cases j
    · have hall : ∀ i' j' : Nat, i' < 3 → j' < 3 → ¬(i' = 0 ∧ j' = 0) →
          ¬ hitsCell g.rows g.cols sr sc i' j'
            (npIndex g.rows (sr + ((0 : Nat) : Int)))
            (npIndex g.cols (sc + ((0 : Nat) : Int))) :=
        fun i' j' h1 h2 h3 =>
          hitsCell_same_target hR hC hsr hsc (by decide) (by decide) h1 h2
            hgi hgj h3
      exact seedOuter_last_hit [(1, [0, 0, 1]), (2, [1, 1, 1])] 0 [0, 1, 0]
        [] [(1, 1), (2, 0)] (0, 0) rfl hgi hgj rfl rfl
        (by
          intro q hq
          have hq' : q ∈ [((1 : Nat), (1 : Int)), (2, 0)] := hq
          fin_cases hq' <;> exact hall _ _ (by decide) (by decide) (by decide))
        (by
          intro pi hpi q hq
          have hpi' : pi ∈ [((1 : Nat), ([0, 0, 1] : List Int)),
            (2, [1, 1, 1])] := hpi
          fin_cases hpi'
          · have hq' : q ∈ [((0 : Nat), (0 : Int)), (1, 0), (2, 1)] := hq
            fin_cases hq' <;> exact hall _ _ (by decide) (by decide) (by decide)
          · have hq' : q ∈ [((0 : Nat), (1 : Int)), (1, 1), (2, 1)] := hq
            fin_cases hq' <;> exact hall _ _ (by decide) (by decide) (by decide))
        [] g.grid
    · have hall : ∀ i' j' : Nat, i' < 3 → j' < 3 → ¬(i' = 0 ∧ j' = 1) →
          ¬ hitsCell g.rows g.cols sr sc i' j'
            (npIndex g.rows (sr + ((0 : Nat) : Int)))
            (npIndex g.cols (sc + ((1 : Nat) : Int))) :=
        fun i' j' h1 h2 h3 =>
          hitsCell_same_target hR hC hsr hsc (by decide) (by decide) h1 h2
            hgi hgj h3
      exact seedOuter_last_hit [(1, [0, 0, 1]), (2, [1, 1, 1])] 0 [0, 1, 0]
        [(0, 0)] [(2, 0)] (1, 1) rfl hgi hgj rfl rfl
        (by
          intro q hq
          have hq' : q ∈ [((2 : Nat), (0 : Int))] := hq
          fin_cases hq' <;> exact hall _ _ (by decide) (by decide) (by decide))
        (by
          intro pi hpi q hq
          have hpi' : pi ∈ [((1 : Nat), ([0, 0, 1] : List Int)),
            (2, [1, 1, 1])] := hpi
          fin_cases hpi'
          · have hq' : q ∈ [((0 : Nat), (0 : Int)), (1, 0), (2, 1)] := hq
            fin_cases hq' <;> exact hall _ _ (by decide) (by decide) (by decide)
          · have hq' : q ∈ [((0 : Nat), (1 : Int)), (1, 1), (2, 1)] := hq
            fin_cases hq' <;> exact hall _ _ (by decide) (by decide) (by decide))
        [] g.grid
    · have hall : ∀ i' j' : Nat, i' < 3 → j' < 3 → ¬(i' = 0 ∧ j' = 2) →
          ¬ hitsCell g.rows g.cols sr sc i' j'
            (npIndex g.rows (sr + ((0 : Nat) : Int)))
            (npIndex g.cols (sc + ((2 : Nat) : Int))) :=
        fun i' j' h1 h2 h3 =>
          hitsCell_same_target hR hC hsr hsc (by decide) (by decide) h1 h2
            hgi hgj h3
      exact seedOuter_last_hit [(1, [0, 0, 1]), (2, [1, 1, 1])] 0 [0, 1, 0]
        [(0, 0), (1, 1)] [] (2, 0) rfl hgi hgj rfl rfl
        (by intro q hq; cases hq)
        (by
          intro pi hpi q hq
          have hpi' : pi ∈ [((1 : Nat), ([0, 0, 1] : List Int)),
            (2, [1, 1, 1])] := hpi
          fin_cases hpi'
          · have hq' : q ∈ [((0 : Nat), (0 : Int)), (1, 0), (2, 1)] := hq
            fin_cases hq' <;> exact hall _ _ (by decide) (by decide) (by decide)
          · have hq' : q ∈ [((0 : Nat), (1 : Int)), (1, 1), (2, 1)] := hq
            fin_cases hq' <;> exact hall _ _ (by decide) (by decide) (by decide))
        [] g.grid
    · have hall : ∀ i' j' : Nat, i' < 3 → j' < 3 → ¬(i' = 1 ∧ j' = 0) →
          ¬ hitsCell g.rows g.cols sr sc i' j'
            (npIndex g.rows (sr + ((1 : Nat) : Int)))
            (npIndex g.cols (sc + ((0 : Nat) : Int))) :=
        fun i' j' h1 h2 h3 =>
          hitsCell_same_target hR hC hsr hsc (by decide) (by decide) h1 h2
            hgi hgj h3
      exact seedOuter_last_hit [(2, [1, 1, 1])] 1 [0, 0, 1]
        [] [(1, 0), (2, 1)] (0, 0) rfl hgi hgj rfl rfl
        (by
          intro q hq
          have hq' : q ∈ [((1 : Nat), (0 : Int)), (2, 1)] := hq
          fin_cases hq' <;> exact hall _ _ (by decide) (by decide) (by decide))
        (by
          intro pi hpi q hq
          have hpi' : pi ∈ [((2 : Nat), ([1, 1, 1] : List Int))] := hpi
          fin_cases hpi'
          have hq' : q ∈ [((0 : Nat), (1 : Int)), (1, 1), (2, 1)] := hq
          fin_cases hq' <;> exact hall _ _ (by decide) (by decide) (by decide))
        [(0, [0, 1, 0])] g.grid
    · have hall : ∀ i' j' : Nat, i' < 3 → j' < 3 → ¬(i' = 1 ∧ j' = 1) →
          ¬ hitsCell g.rows g.cols sr sc i' j'
            (npIndex g.rows (sr + ((1 : Nat) : Int)))
            (npIndex g.cols (sc + ((1 : Nat) : Int))) :=
        fun i' j' h1 h2 h3 =>
          hitsCell_same_target hR hC hsr hsc (by decide) (by decide) h1 h2
            hgi hgj h3
      exact seedOuter_last_hit [(2, [1, 1, 1])] 1 [0, 0, 1]
        [(0, 0)] [(2, 1)] (1, 0) rfl hgi hgj rfl rfl
        (by
          intro q hq
          have hq' : q ∈ [((2 : Nat), (1 : Int))] := hq
          fin_cases hq' <;> exact hall _ _ (by decide) (by decide) (by decide))
        (by
          intro pi hpi q hq
          have hpi' : pi ∈ [((2 : Nat), ([1, 1, 1] : List Int))] := hpi
          fin_cases hpi'
          have hq' : q ∈ [((0 : Nat), (1 : Int)), (1, 1), (2, 1)] := hq
          fin_cases hq' <;> exact hall _ _ (by decide) (by decide) (by decide))
        [(0, [0, 1, 0])] g.grid
    · have hall : ∀ i' j' : Nat, i' < 3 → j' < 3 → ¬(i' = 1 ∧ j' = 2) →
          ¬ hitsCell g.rows g.cols sr sc i' j'
            (npIndex g.rows (sr + ((1 : Nat) : Int)))
            (npIndex g.cols (sc + ((2 : Nat) : Int))) :=
        fun i' j' h1 h2 h3 =>
          hitsCell_same_target hR hC hsr hsc (by decide) (by decide) h1 h2
            hgi hgj h3
      exact seedOuter_last_hit [(2, [1, 1, 1])] 1 [0, 0, 1]
        [(0, 0), (1, 0)] [] (2, 1) rfl hgi hgj rfl rfl
        (by intro q hq; cases hq)
        (by
          intro pi hpi q hq
          have hpi' : pi ∈ [((2 : Nat), ([1, 1, 1] : List Int))] := hpi
          fin_cases hpi'
          have hq' : q ∈ [((0 : Nat), (1 : Int)), (1, 1), (2, 1)] := hq
          fin_cases hq' <;> exact hall _ _ (by decide) (by decide) (by decide))
        [(0, [0, 1, 0])] g.grid
    · have hall : ∀ i' j' : Nat, i' < 3 → j' < 3 → ¬(i' = 2 ∧ j' = 0) →
          ¬ hitsCell g.rows g.cols sr sc i' j'
            (npIndex g.rows (sr + ((2 : Nat) : Int)))
            (npIndex g.cols (sc + ((0 : Nat) : Int))) :=
        fun i' j' h1 h2 h3 =>
          hitsCell_same_target hR hC hsr hsc (by decide) (by decide) h1 h2
            hgi hgj h3
      exact seedOuter_last_hit [] 2 [1, 1, 1]
        [] [(1, 1), (2, 1)] (0, 1) rfl hgi hgj rfl rfl
        (by
          intro q hq
          have hq' : q ∈ [((1 : Nat), (1 : Int)), (2, 1)] := hq
          fin_cases hq' <;> exact hall _ _ (by decide) (by decide) (by decide))
        (by intro pi hpi; cases hpi)
        [(0, [0, 1, 0]), (1, [0, 0, 1])] g.grid
    · have hall : ∀ i' j' : Nat, i' < 3 → j' < 3 → ¬(i' = 2 ∧ j' = 1) →
          ¬ hitsCell g.rows g.cols sr sc i' j'
            (npIndex g.rows (sr + ((2 : Nat) : Int)))
            (npIndex g.cols (sc + ((1 : Nat) : Int))) :=
        fun i' j' h1 h2 h3 =>
          hitsCell_same_target hR hC hsr hsc (by decide) (by decide) h1 h2
            hgi hgj h3
      exact seedOuter_last_hit [] 2 [1, 1, 1]
        [(0, 1)] [(2, 1)] (1, 1) rfl hgi hgj rfl rfl
        (by
          intro q hq
          have hq' : q ∈ [((2 : Nat), (1 : Int))] := hq
          fin_cases hq' <;> exact hall _ _ (by decide) (by decide) (by decide))
        (by intro pi hpi; cases hpi)
        [(0, [0, 1, 0]), (1, [0, 0, 1])] g.grid
    · exact seedOuter_last_hit [] 2 [1, 1, 1]
        [(0, 1), (1, 1)] [] (2, 1) rfl hgi hgj rfl rfl
        (by intro q hq; cases hq)
        (by intro pi hpi; cases hpi)
        [(0, [0, 1, 0]), (1, [0, 0, 1])] g.grid
  · intro r' c' h
    refine seedOuter_skip gliderTemplate.enum g.grid ?_
    intro pi hpi q hq
    have hpi' : pi ∈ [((0 : Nat), ([0, 1, 0] : List Int)), (1, [0, 0, 1]),
      (2, [1, 1, 1])] := hpi
    fin_cases hpi'
    · have hq' : q ∈ [((0 : Nat), (0 : Int)), (1, 1), (2, 0)] := hq
      fin_cases hq' <;> exact h _ _ (by decide) (by decide)
    · have hq' : q ∈ [((0 : Nat), (0 : Int)), (1, 0), (2, 1)] := hq
      fin_cases hq' <;> exact h _ _ (by decide) (by decide)
    · have hq' : q ∈ [((0 : Nat), (1 : Int)), (1, 1), (2, 1)] := hq
      fin_cases hq' <;> exact h _ _ (by decide) (by decide)
  · intro k hk
    unfold npIndex
    rw [if_pos hk]

/-- Witness for C10: seeding the glider at offset `(-1, 0)` on a concrete
3×3 game succeeds (negative offsets are not guarded). -/
theorem create_glider_spec_witness :
    3 ≤ (GameOfLife.init 300 300 100).rows ∧
    -(((GameOfLife.init 300 300 100).rows : Nat) : Int) ≤ -1 ∧
    create_glider (GameOfLife.init 300 300 100) (-1) 0 =
      some { GameOfLife.init 300 300 100 with
        grid := seedModel gliderTemplate (GameOfLife.init 300 300 100).rows
          (GameOfLife.init 300 300 100).cols (-1) 0
          (GameOfLife.init 300 300 100).grid } :=
  ⟨by decide, by decide,
    (create_glider_spec (GameOfLife.init 300 300 100) (-1) 0 (by decide)
      (by decide) (by decide) (by decide)).1⟩

/-! ### C9: the glider translates by (+1, +1) every 4 steps -/

lemma GameOfLife.update_grid_apply (g : GameOfLife) (r c : Nat)
    (hr : r < g.rows) (hc : c < g.cols) :
    g.update_grid.grid r c =
      if g.grid r c = 1 then
        if g.count_neighbors r c = 2 ∨ g.count_neighbors r c = 3 then 1 else 0
      else if g.count_neighbors r c = 3 then 1 else 0 := by
  simp [GameOfLife.update_grid, hr, hc]

lemma GameOfLife.update_grid_apply_outside (g : GameOfLife) (r c : Nat)
    (h : ¬(r < g.rows ∧ c < g.cols)) : g.update_grid.grid r c = 0 := by
  simp only [GameOfLife.update_grid]
  rw [if_neg h]

/-- Wrapped decrement, in `Nat` form. -/
lemma wrap_sub (R r : Nat) (hR : 0 < R) (hr : r < R) :
    (((r : Int) + -1) % (R : Int)).toNat = (r + (R - 1)) % R := by
  have h1 : ((r : Int) + -1 + (R : Int) * 1) % (R : Int) =
      ((r : Int) + -1) % (R : Int) :=
    Int.add_mul_emod_self_left ((r : Int) + -1) (R : Int) 1
  have h2 : (r : Int) + -1 + (R : Int) * 1 = ((r + (R - 1) : Nat) : Int) := by
    push_cast [Nat.cast_sub (by omega : 1 ≤ R)]
    ring
  have h3 : (((r + (R - 1) : Nat) : Int)) % (R : Int) =
      (((r + (R - 1)) % R : Nat) : Int) := (Int.natCast_mod (r + (R - 1)) R).symm
  rw [← h1, h2, h3]
  exact Int.toNat_natCast _

/-- Unmoved index, in `Nat` form. -/
lemma wrap_zero (R r : Nat) (hR : 0 < R) (hr : r < R) :
    ((r : Int) % (R : Int)).toNat = r := by
  have h1 : (r : Int) % (R : Int) = (r : Int) :=
    Int.emod_eq_of_lt (by omega) (by exact_mod_cast hr)
  rw [h1]
  exact Int.toNat_natCast _

/-- Wrapped increment, in `Nat` form. -/
lemma wrap_add (R r : Nat) (hR : 0 < R) (hr : r < R) :
    (((r : Int) + 1) % (R : Int)).toNat = (r + 1) % R := by
  have h2 : (r : Int) + 1 = ((r + 1 : Nat) : Int) := by push_cast; ring
  have h3 : (((r + 1 : Nat) : Int)) % (R : Int) =
      (((r + 1) % R : Nat) : Int) := (Int.natCast_mod (r + 1) R).symm
  rw [h2, h3]
  exact Int.toNat_natCast _

/-- `count_neighbors` at an in-range cell, written with `Nat` modular
indices: the sum of the 8 wrapped neighbors in the loop's order. -/
lemma GameOfLife.count_neighbors_nat (g : GameOfLife) (r c : Nat)
    (hR : 0 < g.rows) (hC : 0 < g.cols) (hr : r < g.rows) (hc : c < g.cols) :
    g.count_neighbors r c =
      g.grid ((r + (g.rows - 1)) % g.rows) ((c + (g.cols - 1)) % g.cols) +
      g.grid ((r + (g.rows - 1)) % g.rows) c +
      g.grid ((r + (g.rows - 1)) % g.rows) ((c + 1) % g.cols) +
      g.grid r ((c + (g.cols - 1)) % g.cols) +
      g.grid r ((c + 1) % g.cols) +
      g.grid ((r + 1) % g.rows) ((c + (g.cols - 1)) % g.cols) +
      g.grid ((r + 1) % g.rows) c +
      g.grid ((r + 1) % g.rows) ((c + 1) % g.cols) := by
  simp only [GameOfLife.count_neighbors, offsets9, List.foldl_cons,
    List.foldl_nil]
  norm_num
  rw [wrap_sub g.rows r hR hr, wrap_zero g.rows r hR hr,
    wrap_add g.rows r hR hr, wrap_sub g.cols c hC hc,
    wrap_zero g.cols c hC hc, wrap_add g.cols c hC hc]

lemma mod_shift_comm (R a k r : Nat) :
    (((r + a) % R) + k) % R = (((r + k) % R) + a) % R := by
  rw [Nat.mod_add_mod, Nat.mod_add_mod]
  have h : r + a + k = r + k + a := by ring
  rw [h]

/-- `update_grid` commutes with toroidal rotation of the buffer: if `g`
samples `g1` at indices shifted by `(a, b)` (mod the dimensions), the same
holds after one step. -/
lemma GameOfLife.update_rot (g g1 : GameOfLife) (a b : Nat)
    (hrows : g1.rows = g.rows) (hcols : g1.cols = g.cols)
    (hR : 0 < g.rows) (hC : 0 < g.cols)
    (hrel : ∀ r c : Nat, r < g.rows → c < g.cols →
      g.grid r c = g1.grid ((r + a) % g.rows) ((c + b) % g.cols)) :
    ∀ r c : Nat, r < g.rows → c < g.cols →
      g.update_grid.grid r c =
        g1.update_grid.grid ((r + a) % g.rows) ((c + b) % g.cols) := by
  intro r c hr hc
  have hra : (r + a) % g.rows < g.rows := Nat.mod_lt _ hR
  have hcb : (c + b) % g.cols < g.cols := Nat.mod_lt _ hC
  have hsub : (r + (g.rows - 1)) % g.rows < g.rows := Nat.mod_lt _ hR
  have hadd : (r + 1) % g.rows < g.rows := Nat.mod_lt _ hR
  have hcsub : (c + (g.cols - 1)) % g.cols < g.cols := Nat.mod_lt _ hC
  have hcadd : (c + 1) % g.cols < g.cols := Nat.mod_lt _ hC
  have hcount : g.count_neighbors r c =
      g1.count_neighbors ((((r + a) % g.rows : Nat)) : Int)
        ((((c + b) % g.cols : Nat)) : Int) := by
    rw [g.count_neighbors_nat r c hR hC hr hc,
      g1.count_neighbors_nat _ _ (hrows ▸ hR) (hcols ▸ hC) (hrows ▸ hra)
        (hcols ▸ hcb), hrows, hcols]
    rw [hrel _ _ hsub hcsub, hrel _ _ hsub hc, hrel _ _ hsub hcadd,
      hrel _ _ hr hcsub, hrel _ _ hr hcadd, hrel _ _ hadd hcsub,
      hrel _ _ hadd hc, hrel _ _ hadd hcadd]
    rw [mod_shift_comm g.rows a (g.rows - 1) r,
      mod_shift_comm g.rows a 1 r,
      mod_shift_comm g.cols b (g.cols - 1) c,
      mod_shift_comm g.cols b 1 c]
  rw [g.update_grid_apply r c hr hc,
    g1.update_grid_apply _ _ (hrows ▸ hra) (hcols ▸ hcb), hcount,
    hrel r c hr hc]

lemma GameOfLife.iterate_update_rows (g : GameOfLife) (n : Nat) :
    (GameOfLife.update_grid^[n] g).rows = g.rows := by
  induction n with
  | zero => rfl
  | succ n ih =>
    rw [Function.iterate_succ_apply']
    exact ih

lemma GameOfLife.iterate_update_cols (g : GameOfLife) (n : Nat) :
    (GameOfLife.update_grid^[n] g).cols = g.cols := by
  induction n with
  | zero => rfl
  | succ n ih =>
    rw [Function.iterate_succ_apply']
    exact ih

lemma GameOfLife.update_rot_iter (g g1 : GameOfLife) (a b : Nat)
    (hrows : g1.rows = g.rows) (hcols : g1.cols = g.cols)
    (hR : 0 < g.rows) (hC : 0 < g.cols)
    (hrel : ∀ r c : Nat, r < g.rows → c < g.cols →
      g.grid r c = g1.grid ((r + a) % g.rows) ((c + b) % g.cols)) :
    ∀ n : Nat, ∀ r c : Nat, r < g.rows → c < g.cols →
      (GameOfLife.update_grid^[n] g).grid r c =
        (GameOfLife.update_grid^[n] g1).grid ((r + a) % g.rows)
          ((c + b) % g.cols) := by
  intro n
  induction n with
  | zero => exact hrel
  | succ n ih =>
    intro r c hr hc
    rw [Function.iterate_succ_apply', Function.iterate_succ_apply']
    have h1 : (GameOfLife.update_grid^[n] g1).rows =
        (GameOfLife.update_grid^[n] g).rows := by
      rw [g.iterate_update_rows, g1.iterate_update_rows, hrows]
    have h2 : (GameOfLife.update_grid^[n] g1).cols =
        (GameOfLife.update_grid^[n] g).cols := by
      rw [g.iterate_update_cols, g1.iterate_update_cols, hcols]
    have hR' : 0 < (GameOfLife.update_grid^[n] g).rows := by
      rw [g.iterate_update_rows]; exact hR
    have hC' : 0 < (GameOfLife.update_grid^[n] g).cols := by
      rw [g.iterate_update_cols]; exact hC
    have hrel' : ∀ r c : Nat, r < (GameOfLife.update_grid^[n] g).rows →
        c < (GameOfLife.update_grid^[n] g).cols →
        (GameOfLife.update_grid^[n] g).grid r c =
          (GameOfLife.update_grid^[n] g1).grid
            ((r + a) % (GameOfLife.update_grid^[n] g).rows)
            ((c + b) % (GameOfLife.update_grid^[n] g).cols) := by
      intro r c hr hc
      rw [g.iterate_update_rows] at hr
      rw [g.iterate_update_cols] at hc
      rw [g.iterate_update_rows, g.iterate_update_cols]
      exact ih r c hr hc
    have := GameOfLife.update_rot (GameOfLife.update_grid^[n] g)
      (GameOfLife.update_grid^[n] g1) a b h1 h2 hR' hC' hrel' r c
      (by rw [g.iterate_update_rows]; exact hr)
      (by rw [g.iterate_update_cols]; exact hc)
    rw [g.iterate_update_rows, g.iterate_update_cols] at this
    exact this

/-- ALIVE cells of the pattern list `L` placed at interior offset `(1, 1)`,
with no wraparound. -/
def aliveIn (L : List (Nat × Nat)) (r c : Nat) : Prop :=
  ∃ p ∈ L, r = 1 + p.1 ∧ c = 1 + p.2

instance (L : List (Nat × Nat)) (r c : Nat) : Decidable (aliveIn L r c) := by
  unfold aliveIn
  infer_instance

/-- The same configuration extended to the whole plane of `Int`
coordinates (dead everywhere off the pattern, negative rows included). -/
def aliveB (L : List (Nat × Nat)) (z w : Int) : Int :=
  if ∃ p ∈ L, z = 1 + (p.1 : Int) ∧ w = 1 + (p.2 : Int) then 1 else 0

/-- The Life neighbor count of the plane configuration `aliveB L` at
`(r, c)` — no wraparound, the plane is simply dead outside the pattern. -/
def planeCount (L : List (Nat × Nat)) (r c : Nat) : Int :=
  aliveB L ((r : Int) - 1) ((c : Int) - 1) + aliveB L ((r : Int) - 1) (c : Int) +
  aliveB L ((r : Int) - 1) ((c : Int) + 1) + aliveB L (r : Int) ((c : Int) - 1) +
  aliveB L (r : Int) ((c : Int) + 1) + aliveB L ((r : Int) + 1) ((c : Int) - 1) +
  aliveB L ((r : Int) + 1) (c : Int) + aliveB L ((r : Int) + 1) ((c : Int) + 1)

/-- A wrapped torus index `n` and a plane coordinate `z` agree on the
pattern band `[1, 4]`: for patterns supported there, the cell values at `n`
(torus) and `z` (plane) coincide. -/
def axisCompat (R n : Nat) (z : Int) : Prop :=
  n < R ∧ ∀ k : Nat, 1 ≤ k → k ≤ 4 → (n = k ↔ z = (k : Int))

lemma axis_id (R r : Nat) (hr : r < R) : axisCompat R r (r : Int) :=
  ⟨hr, fun k _ _ => by omega⟩

lemma axis_sub (R r : Nat) (h7 : 7 ≤ R) (hr : r < R) :
    axisCompat R ((r + (R - 1)) % R) ((r : Int) - 1) := by
  by_cases h0 : r = 0
  · subst h0
    have he : (0 + (R - 1)) % R = R - 1 := by
      rw [Nat.zero_add, Nat.mod_eq_of_lt (by omega)]
    rw [he]
    exact ⟨by omega, fun k hk1 hk4 => by omega⟩
  · have he : (r + (R - 1)) % R = r - 1 := by
      rw [show r + (R - 1) = (r - 1) + R from by omega, Nat.add_mod_right,
        Nat.mod_eq_of_lt (by omega)]
    rw [he]
    exact ⟨by omega, fun k hk1 hk4 => by omega⟩

lemma axis_add (R r : Nat) (h7 : 7 ≤ R) (hr : r < R) :
    axisCompat R ((r + 1) % R) ((r : Int) + 1) := by
  by_cases htop : r + 1 = R
  · have he : (r + 1) % R = 0 := by rw [htop, Nat.mod_self]
    rw [he]
    exact ⟨by omega, fun k hk1 hk4 => by omega⟩
  · have he : (r + 1) % R = r + 1 := Nat.mod_eq_of_lt (by omega)
    rw [he]
    exact ⟨by omega, fun k hk1 hk4 => by omega⟩

/-- On a grid holding the interior pattern `L` (supported in rows/columns
`1..4`), a torus read at compatible indices equals the plane value. -/
lemma grid_term_eq (g : GameOfLife) (L : List (Nat × Nat))
    (hLb : ∀ p ∈ L, p.1 ≤ 3 ∧ p.2 ≤ 3)
    (hgrid : ∀ r c : Nat, r < g.rows → c < g.cols →
      g.grid r c = if aliveIn L r c then 1 else 0)
    (n1 n2 : Nat) (z1 z2 : Int) (h1 : axisCompat g.rows n1 z1)
    (h2 : axisCompat g.cols n2 z2) :
    g.grid n1 n2 = aliveB L z1 z2 := by
  rw [hgrid n1 n2 h1.1 h2.1]
  unfold aliveB aliveIn
  refine if_congr (exists_congr fun p => and_congr_right fun hp => ?_) rfl rfl
  obtain ⟨hb1, hb2⟩ := hLb p hp
  constructor
  · rintro ⟨e1, e2⟩
    exact ⟨by rw [(h1.2 (1 + p.1) (by omega) (by omega)).mp e1]; push_cast; ring,
      by rw [(h2.2 (1 + p.2) (by omega) (by omega)).mp e2]; push_cast; ring⟩
  · rintro ⟨e1, e2⟩
    constructor
    · exact (h1.2 (1 + p.1) (by omega) (by omega)).mpr (by rw [e1]; push_cast; ring)
    · exact (h2.2 (1 + p.2) (by omega) (by omega)).mpr (by rw [e2]; push_cast; ring)

/-- On a large enough torus, the neighbor count of the interior pattern is
its plane neighbor count. -/
lemma count_eq_plane (g : GameOfLife) (L : List (Nat × Nat))
    (h7R : 7 ≤ g.rows) (h7C : 7 ≤ g.cols)
    (hLb : ∀ p ∈ L, p.1 ≤ 3 ∧ p.2 ≤ 3)
    (hgrid : ∀ r c : Nat, r < g.rows → c < g.cols →
      g.grid r c = if aliveIn L r c then 1 else 0)
    (r c : Nat) (hr : r < g.rows) (hc : c < g.cols) :
    g.count_neighbors r c = planeCount L r c := by
  rw [g.count_neighbors_nat r c (by omega) (by omega) hr hc]
  rw [grid_term_eq g L hLb hgrid _ _ _ _ (axis_sub g.rows r h7R hr)
      (axis_sub g.cols c h7C hc),
    grid_term_eq g L hLb hgrid _ _ _ _ (axis_sub g.rows r h7R hr)
      (axis_id g.cols c hc),
    grid_term_eq g L hLb hgrid _ _ _ _ (axis_sub g.rows r h7R hr)
      (axis_add g.cols c h7C hc),
    grid_term_eq g L hLb hgrid _ _ _ _ (axis_id g.rows r hr)
      (axis_sub g.cols c h7C hc),
    grid_term_eq g L hLb hgrid _ _ _ _ (axis_id g.rows r hr)
      (axis_add g.cols c h7C hc),
    grid_term_eq g L hLb hgrid _ _ _ _ (axis_add g.rows r h7R hr)
      (axis_sub g.cols c h7C hc),
    grid_term_eq g L hLb hgrid _ _ _ _ (axis_add g.rows r h7R hr)
      (axis_id g.cols c hc),
    grid_term_eq g L hLb hgrid _ _ _ _ (axis_add g.rows r h7R hr)
      (axis_add g.cols c h7C hc)]
  rfl

lemma aliveIn_far (L : List (Nat × Nat)) (hLb : ∀ p ∈ L, p.1 ≤ 3 ∧ p.2 ≤ 3)
    (r c : Nat) (h : r = 0 ∨ 5 ≤ r ∨ c = 0 ∨ 5 ≤ c) : ¬ aliveIn L r c := by
  rintro ⟨p, hp, rfl, rfl⟩
  have := hLb p hp
  omega

lemma aliveB_far (L : List (Nat × Nat)) (hLb : ∀ p ∈ L, p.1 ≤ 3 ∧ p.2 ≤ 3)
    (z w : Int) (h : z ≤ 0 ∨ 5 ≤ z ∨ w ≤ 0 ∨ 5 ≤ w) : aliveB L z w = 0 := by
  unfold aliveB
  rw [if_neg]
  rintro ⟨p, hp, rfl, rfl⟩
  have := hLb p hp
  omega

lemma planeCount_far (L : List (Nat × Nat))
    (hLb : ∀ p ∈ L, p.1 ≤ 3 ∧ p.2 ≤ 3) (r c : Nat) (h : 6 ≤ r ∨ 6 ≤ c) :
    planeCount L r c = 0 := by
  unfold planeCount
  rw [aliveB_far L hLb _ _ (by omega), aliveB_far L hLb _ _ (by omega),
    aliveB_far L hLb _ _ (by omega), aliveB_far L hLb _ _ (by omega),
    aliveB_far L hLb _ _ (by omega), aliveB_far L hLb _ _ (by omega),
    aliveB_far L hLb _ _ (by omega), aliveB_far L hLb _ _ (by omega)]
  ring

/-- The step rule applied to the plane configuration `aliveIn L`, as a
computable function of the cell. -/
def stepVal (L : List (Nat × Nat)) (r c : Nat) : Int :=
  if (if aliveIn L r c then (1 : Int) else 0) = 1 then
    if planeCount L r c = 2 ∨ planeCount L r c = 3 then 1 else 0
  else if planeCount L r c = 3 then 1 else 0

/-- One `update_grid` of a grid holding the interior pattern `L` produces
the interior pattern `L'`, provided the (finite, decidable) window check
`stepVal L = indicator L'` holds on `[0,5]²` and both patterns live in
`[0,3]²`. -/
lemma glider_step_general (g : GameOfLife) (L L' : List (Nat × Nat))
    (h7R : 7 ≤ g.rows) (h7C : 7 ≤ g.cols)
    (hLb : ∀ p ∈ L, p.1 ≤ 3 ∧ p.2 ≤ 3) (hL'b : ∀ p ∈ L', p.1 ≤ 3 ∧ p.2 ≤ 3)
    (hwin : ∀ r : Nat, r < 6 → ∀ c : Nat, c < 6 →
      stepVal L r c = if aliveIn L' r c then (1 : Int) else 0)
    (hgrid : ∀ r c : Nat, r < g.rows → c < g.cols →
      g.grid r c = if aliveIn L r c then 1 else 0) :
    ∀ r c : Nat, r < g.rows → c < g.cols →
      g.update_grid.grid r c = if aliveIn L' r c then 1 else 0 := by
  intro r c hr hc
  rw [g.update_grid_apply r c hr hc, hgrid r c hr hc,
    count_eq_plane g L h7R h7C hLb hgrid r c hr hc]
  by_cases hw : r < 6 ∧ c < 6
  · exact hwin r hw.1 c hw.2
  · have hal : ¬ aliveIn L r c := aliveIn_far L hLb r c (by omega)
    have hal' : ¬ aliveIn L' r c := aliveIn_far L' hL'b r c (by omega)
    have hcount : planeCount L r c = 0 := planeCount_far L hLb r c (by omega)
    simp [hal, hal', hcount]

/-- The five glider generations, as cell lists relative to a placement with
its bounding box at `(1, 1)`; `genCells 0 = gliderCells` and
`genCells 4` is `gliderCells` translated by `(1, 1)`. -/
def genCells : Nat → List (Nat × Nat)
  | 0 => [(0, 1), (1, 2), (2, 0), (2, 1), (2, 2)]
  | 1 => [(1, 0), (1, 2), (2, 1), (2, 2), (3, 1)]
  | 2 => [(1, 2), (2, 0), (2, 2), (3, 1), (3, 2)]
  | 3 => [(1, 1), (2, 2), (2, 3), (3, 1), (3, 2)]
  | _ => [(1, 2), (2, 3), (3, 1), (3, 2), (3, 3)]

/-- Four `update_grid` steps map the interior glider to the interior
glider translated by `(+1, +1)`. -/
lemma glider_evolution (g : GameOfLife) (h7R : 7 ≤ g.rows)
    (h7C : 7 ≤ g.cols)
    (hgrid : ∀ r c : Nat, r < g.rows → c < g.cols →
      g.grid r c = if aliveIn (genCells 0) r c then 1 else 0) :
    ∀ r c : Nat, r < g.rows → c < g.cols →
      (GameOfLife.update_grid^[4] g).grid r c =
        if aliveIn (genCells 4) r c then 1 else 0 := by
  have h1 := glider_step_general g (genCells 0) (genCells 1) h7R h7C
    (by decide) (by decide) (by decide) hgrid
  have h2 := glider_step_general g.update_grid (genCells 1) (genCells 2) h7R
    h7C (by decide) (by decide) (by decide) h1
  have h3 := glider_step_general g.update_grid.update_grid (genCells 2)
    (genCells 3) h7R h7C (by decide) (by decide) (by decide) h2
  have h4 := glider_step_general g.update_grid.update_grid.update_grid
    (genCells 3) (genCells 4) h7R h7C (by decide) (by decide) (by decide) h3
  exact h4

lemma mod_add_cancel_iff (R r a w u : Nat) (hr : r < R)
    (hw : (a + w) % R = 0) :
    (r + a) % R = u % R ↔ r = (u + w) % R := by
  obtain ⟨q, hq⟩ : R ∣ a + w := Nat.dvd_of_mod_eq_zero hw
  constructor
  · intro h
    have h1 : (r + a + w) % R = (u + w) % R := by
      rw [← Nat.mod_add_mod, h, Nat.mod_add_mod]
    have h2 : (r + a + w) % R = r := by
      rw [Nat.add_assoc, hq, Nat.add_mul_mod_self_left, Nat.mod_eq_of_lt hr]
    omega
  · intro h
    subst h
    rw [Nat.mod_add_mod, show u + w + a = u + (a + w) from by ring, hq,
      Nat.add_mul_mod_self_left]

/-- Amount by which sampling indices must be rotated to re-base a toroidal
placement at offset `w ≡ -(something)`. -/
def rotAmt (R w : Nat) : Nat := (R - w % R) % R

lemma rotAmt_spec (R w : Nat) (hR : 0 < R) : (rotAmt R w + w) % R = 0 := by
  unfold rotAmt
  rw [Nat.mod_add_mod]
  have h : R * (w / R) + w % R = w := Nat.div_add_mod w R
  have hlt : w % R < R := Nat.mod_lt _ hR
  have hkey : R - w % R + w = R * (w / R + 1) := by
    rw [Nat.mul_add, Nat.mul_one]
    omega
  rw [hkey]
  exact Nat.mul_mod_right R _

lemma rot_place_iff (R : Nat) (hR : 0 < R) (r0 p u : Nat) (hu : 1 ≤ u)
    (r : Nat) (hr : r < R) :
    (r + rotAmt R (r0 + R - 1)) % R = (u + p) % R ↔
      r = (r0 + u - 1 + p) % R := by
  rw [mod_add_cancel_iff R r (rotAmt R (r0 + R - 1)) (r0 + R - 1) (u + p) hr
    (rotAmt_spec R (r0 + R - 1) hR)]
  rw [show u + p + (r0 + R - 1) = (r0 + u - 1 + p) + R from by omega,
    Nat.add_mod_right]

/-- Toroidal placement at an arbitrary offset is the placement at the base
offset `(u, v)`, sampled through rotated indices. -/
lemma place_rot_grid (R C : Nat) (hR : 0 < R) (hC : 0 < C)
    (r0 c0 u v : Nat) (hu : 1 ≤ u) (hv : 1 ≤ v) (cells : List (Nat × Nat))
    (r c : Nat) (hr : r < R) (hc : c < C) :
    placeCells R C (r0 + u - 1) (c0 + v - 1) cells r c =
      placeCells R C u v cells ((r + rotAmt R (r0 + R - 1)) % R)
        ((c + rotAmt C (c0 + C - 1)) % C) := by
  unfold placeCells
  exact if_congr
    (exists_congr fun p => and_congr_right fun _ =>
      and_congr (rot_place_iff R hR r0 p.1 u hu r hr).symm
        (rot_place_iff C hC c0 p.2 v hv c hc).symm)
    rfl rfl

lemma placeCells_outside (R C r0 c0 : Nat) (cells : List (Nat × Nat))
    (hR : 0 < R) (hC : 0 < C) (r c : Nat) (h : ¬(r < R ∧ c < C)) :
    placeCells R C r0 c0 cells r c = 0 := by
  unfold placeCells
  rw [if_neg]
  rintro ⟨p, hp, rfl, rfl⟩
  exact h ⟨Nat.mod_lt _ hR, Nat.mod_lt _ hC⟩

/-- Placement at the interior base offset `(1, 1)` on a large torus does
not wrap, so it is the plain interior configuration `aliveIn`. -/
lemma place11_eq (R C : Nat) (h7R : 7 ≤ R) (h7C : 7 ≤ C)
    (L : List (Nat × Nat)) (hLb : ∀ p ∈ L, p.1 ≤ 3 ∧ p.2 ≤ 3) (r c : Nat) :
    placeCells R C 1 1 L r c = if aliveIn L r c then 1 else 0 := by
  unfold placeCells aliveIn
  refine if_congr (exists_congr fun p => and_congr_right fun hp => ?_) rfl rfl
  obtain ⟨h1, h2⟩ := hLb p hp
  rw [Nat.mod_eq_of_lt (by omega : 1 + p.1 < R),
    Nat.mod_eq_of_lt (by omega : 1 + p.2 < C)]

/-- The fourth glider generation is the glider itself translated by
`(+1, +1)`. -/
lemma place_gen4 (R C : Nat) (r c : Nat) :
    placeCells R C 1 1 (genCells 4) r c =
      placeCells R C 2 2 gliderCells r c := by
  unfold placeCells
  refine if_congr ?_ rfl rfl
  constructor
  · rintro ⟨p, hp, h1, h2⟩
    fin_cases hp
    · exact ⟨(0, 1), by decide, h1, h2⟩
    · exact ⟨(1, 2), by decide, h1, h2⟩
    · exact ⟨(2, 0), by decide, h1, h2⟩
    · exact ⟨(2, 1), by decide, h1, h2⟩
    · exact ⟨(2, 2), by decide, h1, h2⟩
  · rintro ⟨p, hp, h1, h2⟩
    fin_cases hp
    · exact ⟨(1, 2), by decide, h1, h2⟩
    · exact ⟨(2, 3), by decide, h1, h2⟩
    · exact ⟨(3, 1), by decide, h1, h2⟩
    · exact ⟨(3, 2), by decide, h1, h2⟩
    · exact ⟨(3, 3), by decide, h1, h2⟩

/-- C9 (amended): on any toroidal grid with `rows ≥ 7` and `cols ≥ 7`
whose ALIVE cells are exactly the 3×3 glider template
`[[0,1,0],[0,0,1],[1,1,1]]` placed (toroidally) at an arbitrary offset
`(r0, c0)`, four applications of `update_grid` produce exactly the same
template placed at `(r0 + 1, c0 + 1)`, positions taken modulo the
dimensions.  On small grids the claim as stated fails (see
`glider_3x3_claim_false`): the wraparound makes the glider interact with
itself. -/
theorem glider_period_four (g : GameOfLife) (r0 c0 : Nat)
    (hR : 7 ≤ g.rows) (hC : 7 ≤ g.cols)
    (hgrid : g.grid = placeCells g.rows g.cols r0 c0 gliderCells) :
    (GameOfLife.update_grid^[4] g).grid =
      placeCells g.rows g.cols (r0 + 1) (c0 + 1) gliderCells := by
  set aR := rotAmt g.rows (r0 + g.rows - 1) with haR
  set aC := rotAmt g.cols (c0 + g.cols - 1) with haC
  set g1 : GameOfLife :=
    mkGame g.rows g.cols (placeCells g.rows g.cols 1 1 gliderCells) with hg1
  have hg1grid : ∀ r c : Nat, r < g.rows → c < g.cols →
      g1.grid r c = if aliveIn (genCells 0) r c then 1 else 0 := by
    intro r c _ _
    show placeCells g.rows g.cols 1 1 gliderCells r c = _
    have hgl : gliderCells = genCells 0 := rfl
    rw [hgl, place11_eq g.rows g.cols hR hC (genCells 0) (by decide) r c]
  have hrel : ∀ r c : Nat, r < g.rows → c < g.cols →
      g.grid r c = g1.grid ((r + aR) % g.rows) ((c + aC) % g.cols) := by
    intro r c hr hc
    rw [hgrid]
    show placeCells g.rows g.cols r0 c0 gliderCells r c =
      placeCells g.rows g.cols 1 1 gliderCells ((r + aR) % g.rows)
        ((c + aC) % g.cols)
    have h := place_rot_grid g.rows g.cols (by omega) (by omega) r0 c0 1 1
      (by omega) (by omega) gliderCells r c hr hc
    simp only [Nat.add_sub_cancel] at h
    exact h
  have hrel4 := GameOfLife.update_rot_iter g g1 aR aC rfl rfl (by omega)
    (by omega) hrel 4
  have hev := glider_evolution g1 hR hC hg1grid
  funext r c
  by_cases hrc : r < g.rows ∧ c < g.cols
  · obtain ⟨hr, hc⟩ := hrc
    have hra : (r + aR) % g.rows < g.rows := Nat.mod_lt _ (by omega)
    have hcb : (c + aC) % g.cols < g.cols := Nat.mod_lt _ (by omega)
    rw [hrel4 r c hr hc, hev _ _ hra hcb,
      ← place11_eq g.rows g.cols hR hC (genCells 4) (by decide),
      place_gen4 g.rows g.cols]
    have h := place_rot_grid g.rows g.cols (by omega) (by omega) r0 c0 2 2
      (by omega) (by omega) gliderCells r c hr hc
    have e1 : r0 + 2 - 1 = r0 + 1 := by omega
    have e2 : c0 + 2 - 1 = c0 + 1 := by omega
    rw [e1, e2] at h
    exact h.symm
  · have h4 : GameOfLife.update_grid^[4] g =
        (GameOfLife.update_grid^[3] g).update_grid := by
      rw [Function.iterate_succ_apply']
    have hlhs : (GameOfLife.update_grid^[4] g).grid r c = 0 := by
      rw [h4]
      refine (GameOfLife.update_grid^[3] g).update_grid_apply_outside r c ?_
      rw [g.iterate_update_rows, g.iterate_update_cols]
      exact hrc
    rw [hlhs,
      placeCells_outside g.rows g.cols (r0 + 1) (c0 + 1) gliderCells
        (by omega) (by omega) r c hrc]

/-- Counterexample to C9 as stated: on a 3×3 grid containing exactly the
glider template (placed at `(0, 0)`, it fills the whole grid), four steps
do NOT yield the template translated by `(+1, +1)` — the toroidal
wraparound makes every cell adjacent to every other, so the glider dies
out: after four steps every cell is DEAD, while the translated template
has cell `(1, 2)` ALIVE. -/
theorem glider_3x3_claim_false :
    (∀ r : Nat, r < 3 → ∀ c : Nat, c < 3 →
      (GameOfLife.update_grid^[4]
        (mkGame 3 3 (placeCells 3 3 0 0 gliderCells))).grid r c = 0) ∧
    placeCells 3 3 1 1 gliderCells 1 2 = 1 := by
  have hdead : ∀ x : GameOfLife, 0 < x.rows → 0 < x.cols →
      (∀ r c : Nat, r < x.rows → c < x.cols → x.grid r c = 0) →
      ∀ r c : Nat, r < x.rows → c < x.cols → x.update_grid.grid r c = 0 := by
    intro x hR hC hgrid r c hr hc
    have hcount : x.count_neighbors r c = 0 := by
      rw [x.count_neighbors_nat r c hR hC hr hc,
        hgrid _ _ (Nat.mod_lt _ hR) (Nat.mod_lt _ hC),
        hgrid _ _ (Nat.mod_lt _ hR) hc,
        hgrid _ _ (Nat.mod_lt _ hR) (Nat.mod_lt _ hC),
        hgrid _ _ hr (Nat.mod_lt _ hC),
        hgrid _ _ hr (Nat.mod_lt _ hC),
        hgrid _ _ (Nat.mod_lt _ hR) (Nat.mod_lt _ hC),
        hgrid _ _ (Nat.mod_lt _ hR) hc,
        hgrid _ _ (Nat.mod_lt _ hR) (Nat.mod_lt _ hC)]
      ring
    rw [x.update_grid_apply r c hr hc, hgrid r c hr hc, hcount]
    norm_num
  have h1 : ∀ r : Nat, r < 3 → ∀ c : Nat, c < 3 →
      (mkGame 3 3 (placeCells 3 3 0 0 gliderCells)).update_grid.grid r c
        = 0 := by decide
  have h2 := fun r c hr hc => hdead
    (mkGame 3 3 (placeCells 3 3 0 0 gliderCells)).update_grid
    (by decide) (by decide) (fun r c hr hc => h1 r hr c hc) r c hr hc
  have h3 := fun r c hr hc => hdead
    (mkGame 3 3 (placeCells 3 3 0 0 gliderCells)).update_grid.update_grid
    (by decide) (by decide) h2 r c hr hc
  have h4 := fun r c hr hc => hdead
    (mkGame 3 3
      (placeCells 3 3 0 0 gliderCells)).update_grid.update_grid.update_grid
    (by decide) (by decide) h3 r c hr hc
  exact ⟨fun r hr c hc => h4 r c hr hc, by decide⟩

/-- Witness for the amended C9 at a concrete input: on a 7×7 torus the
glider placed at `(0, 0)` reappears at `(1, 1)` after four steps. -/
theorem glider_period_four_witness :
    7 ≤ (mkGame 7 7 (placeCells 7 7 0 0 gliderCells)).rows ∧
    7 ≤ (mkGame 7 7 (placeCells 7 7 0 0 gliderCells)).cols ∧
    (GameOfLife.update_grid^[4]
        (mkGame 7 7 (placeCells 7 7 0 0 gliderCells))).grid =
      placeCells (mkGame 7 7 (placeCells 7 7 0 0 gliderCells)).rows
        (mkGame 7 7 (placeCells 7 7 0 0 gliderCells)).cols 1 1 gliderCells :=
  ⟨by decide, by decide,
    glider_period_four (mkGame 7 7 (placeCells 7 7 0 0 gliderCells)) 0 0
      (by decide) (by decide) rfl⟩
